import Mathlib

/-!
Verification of the extraction-and-normalization engine of the dataset
scraper (`src/app.py`).  The Python source is shallowly embedded: each
helper function of the source is translated into an executable Lean
definition operating on character lists, and the behaviour of the Python
standard-library routines the source calls (`re` searches for the concrete
patterns appearing in the source, `datetime.strptime` for the concrete
format strings appearing in the source, `urllib.parse.urljoin` /
`urlparse().hostname`, string methods) is modelled by bespoke definitions
that are documented where they appear.  Machine integers play no role in
this program; all text is modelled over Lean `String`/`Char` (code points,
matching CPython `str` for the ASCII data this program manipulates).
-/

/-! ### Python string primitives -/

/-- The whitespace recognised by `str.strip()` and by `\s` in the source's
regular expressions (ASCII fragment). -/
def isPySpace (c : Char) : Bool :=
  c = ' ' || c = '\t' || c = '\n' || c = '\r' || c = '\x0b' || c = '\x0c'

/-- `str.strip()` on the underlying character list. -/
def pyStripList (l : List Char) : List Char :=
  ((l.dropWhile isPySpace).reverse.dropWhile isPySpace).reverse

/-- `str.strip()`. -/
def pyStrip (s : String) : String := String.mk (pyStripList s.data)

/-- ASCII lower-casing of one character (the source only ever lower-cases
ASCII data). -/
def lowerChar (c : Char) : Char :=
  if 'A' ≤ c ∧ c ≤ 'Z' then Char.ofNat (c.toNat + 32) else c

/-- ASCII upper-casing of one character. -/
def upperChar (c : Char) : Char :=
  if 'a' ≤ c ∧ c ≤ 'z' then Char.ofNat (c.toNat - 32) else c

/-- `str.lower()`. -/
def strLower (s : String) : String := String.mk (s.data.map lowerChar)

/-- `str.upper()`. -/
def strUpper (s : String) : String := String.mk (s.data.map upperChar)

/-- Does the second list start with the first one? (exact characters). -/
def isHeadSeq : List Char → List Char → Bool
  | [], _ => true
  | _ :: _, [] => false
  | a :: as, b :: bs => a = b && isHeadSeq as bs

/-- Does the second list start with the first one, case-insensitively? -/
def isHeadSeqCI : List Char → List Char → Bool
  | [], _ => true
  | _ :: _, [] => false
  | a :: as, b :: bs => lowerChar a = lowerChar b && isHeadSeqCI as bs

/-- Python's substring test `needle in hay` on character lists. -/
def listHasSub (needle : List Char) : List Char → Bool
  | [] => needle.isEmpty
  | l@(_ :: rest) => isHeadSeq needle l || listHasSub needle rest

/-- Python's substring test `needle in hay`. -/
def containsSub (hay needle : String) : Bool := listHasSub needle.data hay.data

/-- Case-insensitive substring test (models `re.search` of an alternation of
plain words compiled with `re.I`, which holds iff some word occurs as a
substring up to case). -/
def listHasSubCI (needle : List Char) : List Char → Bool
  | [] => needle.isEmpty
  | l@(_ :: rest) => isHeadSeqCI needle l || listHasSubCI needle rest

/-- Case-insensitive test that some word of `pats` occurs in `hay`. -/
def containsAnyCI (hay : String) (pats : List String) : Bool :=
  pats.any (fun p => listHasSubCI p.data hay.data)

/-- `str.replace(old, new)` for a one-character `old` (the only shape of
`replace` the source uses). -/
def pyReplaceChar (c : Char) (rep : String) (s : String) : String :=
  String.mk (s.data.flatMap (fun x => if x = c then rep.data else [x]))

/-- Truthiness of a Python string. -/
def pyTruthy (s : String) : Bool := !s.data.isEmpty

/-- Truthiness of an optional Python string (`None` and `""` are falsy). -/
def optTruthy (o : Option String) : Bool :=
  match o with
  | some s => pyTruthy s
  | none => false

/-- Python's `a or b` on optional strings: `a` when truthy, else `b`. -/
def pyOr (a b : Option String) : Option String := if optTruthy a then a else b

/-- Python's `a or d` with a string default: value of `a` when truthy,
else `d`. -/
def pyOrD (a : Option String) (d : String) : String :=
  match a with
  | some s => if pyTruthy s then s else d
  | none => d

/-- Normalise an optional string the way `**({k: v} if v else {})` does:
the key is present exactly when the value is truthy. -/
def optKeep (o : Option String) : Option String := if optTruthy o then o else none

/-- Code-point lexicographic comparison of character lists (Python's `<=`
on `str`, used by `sorted`). -/
def charListLe : List Char → List Char → Bool
  | [], _ => true
  | _ :: _, [] => false
  | a :: as, b :: bs =>
    if a.toNat < b.toNat then true
    else if b.toNat < a.toNat then false
    else charListLe as bs

/-- Python's `<=` on strings. -/
def strLe (a b : String) : Bool := charListLe a.data b.data

/-- Zero-padded two-digit rendering (`f"{n:02d}"` for `n ≤ 99`). -/
def pad2 (n : Nat) : String := String.mk [Char.ofNat (n / 10 % 10 + 48), Char.ofNat (n % 10 + 48)]

/-- Zero-padded four-digit rendering of a year (`strftime("%Y")` for the
four-digit years this program produces). -/
def pad4 (n : Nat) : String :=
  String.mk [Char.ofNat (n / 1000 % 10 + 48), Char.ofNat (n / 100 % 10 + 48),
    Char.ofNat (n / 10 % 10 + 48), Char.ofNat (n % 10 + 48)]

/-- `"\n".join(lines)` (the serializer joins with a newline). -/
def joinWith (sep : String) : List String → String
  | [] => ""
  | [x] => x
  | x :: xs => x ++ sep ++ joinWith sep xs

/-! ### URL & format classifier (`_EXT_MEDIA`, `_guess_media_type_from_url`,
`_uppercase_ext_from_url`, src/app.py lines 22-51) -/

/-- The fixed extension → media-type table `_EXT_MEDIA`. -/
def extMediaTable : List (String × String) :=
  [("zip", "application/zip"),
   ("csv", "text/csv"),
   ("json", "application/json"),
   ("geojson", "application/geo+json"),
   ("xml", "application/xml"),
   ("xlsx", "application/vnd.openxmlformats-officedocument.spreadsheetml.sheet"),
   ("xls", "application/vnd.ms-excel"),
   ("parquet", "application/octet-stream"),
   ("html", "text/html"),
   ("htm", "text/html"),
   ("txt", "text/plain"),
   ("tgz", "application/gzip"),
   ("gz", "application/gzip"),
   ("tar", "application/x-tar")]

/-- `_EXT_MEDIA.get(ext)`. -/
def extMediaGet (e : String) : Option String :=
  (extMediaTable.find? (fun p => p.1 = e)).map (fun p => p.2)

/-- `re.search(r"\.([a-zA-Z0-9]+)(?:$|\?)", u)`: the first dot whose maximal
following alphanumeric run (nonempty) is ended by the end of the string or a
`?`; the run is the captured group.  (Shorter splits of the run cannot
satisfy the terminator, so the maximal run is the only candidate at each
dot.) -/
def extGroupSearch : List Char → Option (List Char)
  | [] => none
  | '.' :: rest =>
    let run := rest.takeWhile Char.isAlphanum
    if run.isEmpty then extGroupSearch rest
    else
      match rest.drop run.length with
      | [] => some run
      | '?' :: _ => some run
      | _ => extGroupSearch rest
  | _ :: rest => extGroupSearch rest

/-- The raw captured extension of a URL, when the pattern matches. -/
def extOf (u : String) : Option String := (extGroupSearch u.data).map String.mk

/-- `_guess_media_type_from_url` (src/app.py lines 40-47). -/
def guessMediaTypeFromUrl (u : String) : String :=
  if ¬ pyTruthy u then "text/html"
  else
    match extOf u with
    | some e => (extMediaGet (strLower e)).getD "application/octet-stream"
    | none => "text/html"

/-- `_uppercase_ext_from_url` (src/app.py lines 49-51). -/
def uppercaseExtFromUrl (u : String) : String :=
  match extOf u with
  | some e => strUpper e
  | none => "HTML"

/-! ### Date and year normalisation (`_extract_year_from_string`,
`_parse_date_from_metadata`, src/app.py lines 53-82) -/

/-- Numeric value of a digit character. -/
def digitVal (c : Char) : Nat := c.toNat - 48

/-- `re.search(r"(20\d{2})", s)`: the first position where `2`, `0` and two
digits occur consecutively, returning those four characters. -/
def search20XX : List Char → Option String
  | [] => none
  | '2' :: rest =>
    match rest with
    | '0' :: c :: d :: _ =>
      if c.isDigit && d.isDigit then some (String.mk ['2', '0', c, d]) else search20XX rest
    | _ => search20XX rest
  | _ :: rest => search20XX rest

/-- A regex word character (`\w`): letter, digit or underscore. -/
def isWordChar (c : Char) : Bool := c.isAlphanum || c = '_'

/-- `re.search(r"\b(\d{2})\b", s)`: the first two consecutive digits with a
word boundary on both sides; `prev` is the character before the current
position (none at the start of the string). -/
def searchYY (prev : Option Char) : List Char → Option (Char × Char)
  | a :: b :: rest =>
    if a.isDigit && b.isDigit
        && !(match prev with | some p => isWordChar p | none => false)
        && !(match rest with | c :: _ => isWordChar c | [] => false) then
      some (a, b)
    else searchYY (some a) (b :: rest)
  | _ => none

/-- `_extract_year_from_string` (src/app.py lines 53-63).  Note that the
`yy <= 25` pivot lives here, in the fallback two-digit search, only. -/
def extractYearFromString (s : String) : Option String :=
  if ¬ pyTruthy s then none
  else
    match search20XX s.data with
    | some y => some y
    | none =>
      match searchYY none s.data with
      | some (a, b) =>
        let yy := digitVal a * 10 + digitVal b
        if yy ≤ 25 then some ("20" ++ pad2 yy) else some ("19" ++ pad2 yy)
      | none => none

/-! `datetime.strptime`, modelled for the nine format strings the source
tries.  CPython compiles each directive to a regular expression fragment
(`%d` → `3[01]|[12]\d|0[1-9]|[1-9]`, `%m` → `1[0-2]|0[1-9]|[1-9]`,
`%H` → `2[0-3]|[0-1]\d|\d`, `%M` → `[0-5]\d|\d`, `%S` → `6[0-1]|[0-5]\d|\d`,
`%y` → `\d\d`, `%Y` → `\d\d\d\d`, whitespace → `\s+`), requires the whole
string to match, applies the 69-pivot to `%y` (`00-68` → `20yy`,
`69-99` → `19yy`), and finally validates the values through the `datetime`
constructor (day within month, year at least 1, seconds at most 59).
Each directive below returns its alternatives in the regex's priority
order and the sequencer takes the first full match, which reproduces the
backtracking behaviour. -/

/-- One format-string token. -/
inductive FTok where
  | dd | mm2 | y4 | y2 | hh | mins | ss | lit (c : Char) | ws
deriving Repr

/-- Alternatives for `%d` (`3[01]|[12]\d|0[1-9]|[1-9]`). -/
def altsDD (l : List Char) : List (Nat × List Char) :=
  (match l with
   | '3' :: c :: r => if c = '0' || c = '1' then [(30 + digitVal c, r)] else []
   | _ => []) ++
  (match l with
   | c :: d :: r =>
     if (c = '1' || c = '2') && d.isDigit then [(digitVal c * 10 + digitVal d, r)] else []
   | _ => []) ++
  (match l with
   | '0' :: d :: r => if d.isDigit && digitVal d ≥ 1 then [(digitVal d, r)] else []
   | _ => []) ++
  (match l with
   | c :: r => if c.isDigit && digitVal c ≥ 1 then [(digitVal c, r)] else []
   | [] => [])

/-- Alternatives for `%m` (`1[0-2]|0[1-9]|[1-9]`). -/
def altsMM (l : List Char) : List (Nat × List Char) :=
  (match l with
   | '1' :: c :: r => if c = '0' || c = '1' || c = '2' then [(10 + digitVal c, r)] else []
   | _ => []) ++
  (match l with
   | '0' :: d :: r => if d.isDigit && digitVal d ≥ 1 then [(digitVal d, r)] else []
   | _ => []) ++
  (match l with
   | c :: r => if c.isDigit && digitVal c ≥ 1 then [(digitVal c, r)] else []
   | [] => [])

/-- Alternatives for `%H` (`2[0-3]|[0-1]\d|\d`). -/
def altsHH (l : List Char) : List (Nat × List Char) :=
  (match l with
   | '2' :: c :: r => if c.isDigit && digitVal c ≤ 3 then [(20 + digitVal c, r)] else []
   | _ => []) ++
  (match l with
   | c :: d :: r =>
     if (c = '0' || c = '1') && d.isDigit then [(digitVal c * 10 + digitVal d, r)] else []
   | _ => []) ++
  (match l with
   | c :: r => if c.isDigit then [(digitVal c, r)] else []
   | [] => [])

/-- Alternatives for `%M` (`[0-5]\d|\d`). -/
def altsMin (l : List Char) : List (Nat × List Char) :=
  (match l with
   | c :: d :: r =>
     if c.isDigit && digitVal c ≤ 5 && d.isDigit then [(digitVal c * 10 + digitVal d, r)]
     else []
   | _ => []) ++
  (match l with
   | c :: r => if c.isDigit then [(digitVal c, r)] else []
   | [] => [])

/-- Alternatives for `%S` (`6[0-1]|[0-5]\d|\d`). -/
def altsSS (l : List Char) : List (Nat × List Char) :=
  (match l with
   | '6' :: c :: r => if c = '0' || c = '1' then [(60 + digitVal c, r)] else []
   | _ => []) ++
  (match l with
   | c :: d :: r =>
     if c.isDigit && digitVal c ≤ 5 && d.isDigit then [(digitVal c * 10 + digitVal d, r)]
     else []
   | _ => []) ++
  (match l with
   | c :: r => if c.isDigit then [(digitVal c, r)] else []
   | [] => [])

/-- Exactly `n` digits. -/
def altsDigits (n : Nat) (l : List Char) : List (Nat × List Char) :=
  let run := l.take n
  if run.length = n && run.all Char.isDigit then
    [(run.foldl (fun a c => a * 10 + digitVal c) 0, l.drop n)]
  else []

/-- Alternatives of one token, as `(captured value?, rest)` pairs in regex
priority order. -/
def tokAlts : FTok → List Char → List (Option Nat × List Char)
  | .dd, l => (altsDD l).map (fun p => (some p.1, p.2))
  | .mm2, l => (altsMM l).map (fun p => (some p.1, p.2))
  | .y4, l => (altsDigits 4 l).map (fun p => (some p.1, p.2))
  | .y2, l => (altsDigits 2 l).map (fun p => (some p.1, p.2))
  | .hh, l => (altsHH l).map (fun p => (some p.1, p.2))
  | .mins, l => (altsMin l).map (fun p => (some p.1, p.2))
  | .ss, l => (altsSS l).map (fun p => (some p.1, p.2))
  | .lit c, l =>
    match l with
    | x :: r => if x = c then [(none, r)] else []
    | [] => []
  | .ws, l =>
    let n := (l.takeWhile isPySpace).length
    (List.range n).map (fun i => (none, l.drop (n - i)))

/-- All full matches of a token sequence against the input, each as its list
of captured values, in backtracking priority order. -/
def matchSeq : List FTok → List Char → List (List Nat)
  | [], l => if l.isEmpty then [[]] else []
  | t :: ts, l =>
    (tokAlts t l).flatMap fun p =>
      (matchSeq ts p.2).map fun vs =>
        match p.1 with
        | some v => v :: vs
        | none => vs

/-- Gregorian leap year (as validated by `datetime`). -/
def isLeapYear (y : Nat) : Bool := y % 4 = 0 && (y % 100 ≠ 0 || y % 400 = 0)

/-- Days in a month (as validated by `datetime`). -/
def daysInMonth (y m : Nat) : Nat :=
  if m = 2 then (if isLeapYear y then 29 else 28)
  else if m = 4 || m = 6 || m = 9 || m = 11 then 30
  else 31

/-- One `strptime` pattern from the source's list: its tokens, whether the
day group comes first (`%d/%m/...`) or the year does (`%Y-...`), whether
the format contains `%d` (which selects the output granularity), whether
the year is two-digit, and whether a time part is present. -/
structure FmtSpec where
  toks : List FTok
  dayFirst : Bool
  hasDay : Bool
  twoDigitYear : Bool
  withTime : Bool

/-- The patterns of `_parse_date_from_metadata` in source order
(src/app.py lines 69-75). -/
def strptimePatterns : List FmtSpec :=
  [⟨[.dd, .lit '/', .mm2, .lit '/', .y4, .ws, .hh, .lit ':', .mins, .lit ':', .ss],
    true, true, false, true⟩,
   ⟨[.dd, .lit '/', .mm2, .lit '/', .y2, .ws, .hh, .lit ':', .mins, .lit ':', .ss],
    true, true, true, true⟩,
   ⟨[.dd, .lit '/', .mm2, .lit '/', .y4], true, true, false, false⟩,
   ⟨[.dd, .lit '/', .mm2, .lit '/', .y2], true, true, true, false⟩,
   ⟨[.y4, .lit '-', .mm2, .lit '-', .dd], false, true, false, false⟩,
   ⟨[.y4, .lit '/', .mm2, .lit '/', .dd], false, true, false, false⟩,
   ⟨[.dd, .lit '-', .mm2, .lit '-', .y4], true, true, false, false⟩,
   ⟨[.dd, .lit '-', .mm2, .lit '-', .y2], true, true, true, false⟩,
   ⟨[.y4], false, false, false, false⟩]

/-- Interpret the captured values of one full match: apply the `%y`
69-pivot, validate through the `datetime` constructor, and render with
`strftime` at the granularity the source selects (`%Y-%m-%d` when the
format contains `%d`, else `%Y`). -/
def interpCaps (fs : FmtSpec) (caps : List Nat) : Option String :=
  let dateVals : Option (Nat × Nat × Nat) :=
    if fs.hasDay then
      match caps with
      | a :: b :: c :: _ =>
        if fs.dayFirst then some (c, b, a) else some (a, b, c)
      | _ => none
    else
      match caps with
      | y :: _ => some (y, 1, 1)
      | _ => none
  match dateVals with
  | none => none
  | some (y0, m, d) =>
    let y := if fs.twoDigitYear then (if y0 ≤ 68 then y0 + 2000 else y0 + 1900) else y0
    let timeOk :=
      if fs.withTime then
        match caps.drop 3 with
        | _ :: _ :: s :: _ => s ≤ 59
        | _ => false
      else true
    if y ≥ 1 && d ≤ daysInMonth y m && timeOk then
      if fs.hasDay then some (pad4 y ++ "-" ++ pad2 m ++ "-" ++ pad2 d)
      else some (pad4 y)
    else none

/-- `_parse_date_from_metadata` (src/app.py lines 65-82): try the fixed
pattern list in order, taking the first pattern that fully matches and
validates; otherwise fall back to `_extract_year_from_string`. -/
def parseDateFromMetadata (dtString : String) : Option String :=
  if ¬ pyTruthy dtString then none
  else
    let s := pyStrip dtString
    match strptimePatterns.findSome? (fun fs => ((matchSeq fs.toks s.data).head?).bind (interpCaps fs)) with
    | some out => some out
    | none => extractYearFromString s

example : parseDateFromMetadata "15/03/2023" = some "2023-03-15" := by decide
example : parseDateFromMetadata "2023" = some "2023" := by decide
example : parseDateFromMetadata "random text" = none := by decide
example : parseDateFromMetadata "01/01/24" = some "2024-01-01" := by decide
example : parseDateFromMetadata "01/01/50" = some "2050-01-01" := by decide
example : parseDateFromMetadata "01/01/69" = some "1969-01-01" := by decide
example : parseDateFromMetadata "31/02/2023" = some "2023" := by decide
example : parseDateFromMetadata "2023-07-09" = some "2023-07-09" := by decide
example : parseDateFromMetadata " 12/11/2021 10:22:33 " = some "2021-11-12" := by decide
example : extractYearFromString "around 50 items" = some "1950" := by decide
example : extractYearFromString "in 2019" = some "2019" := by decide

/-! ### Keyword extraction (`_STOPWORDS`, `_make_keywords`, src/app.py
lines 38, 84-103) -/

/-- The fixed stop-word set `_STOPWORDS`. -/
def STOPWORDS : List String :=
  ["of", "the", "and", "in", "on", "for", "a", "an", "with", "by", "to", "from",
   "dataset", "data", "2009"]

/-- Membership of a string in a list, by value. -/
def listHasStr (l : List String) (t : String) : Bool := l.any (fun x => x = t)

/-- `re.findall(r"[A-Za-z0-9]+", s)`: the maximal alphanumeric runs of `s`
in order (`acc` holds the current run reversed). -/
def alnumRunsGo (acc : List Char) : List Char → List String
  | [] => if acc.isEmpty then [] else [String.mk acc.reverse]
  | c :: rest =>
    if c.isAlphanum then alnumRunsGo (c :: acc) rest
    else if acc.isEmpty then alnumRunsGo [] rest
    else String.mk acc.reverse :: alnumRunsGo [] rest

/-- `re.findall(r"[A-Za-z0-9]+", s)`. -/
def findAlnumRuns (s : String) : List String := alnumRunsGo [] s.data

/-- A metadata mapping (one Python dict of string keys and values). -/
abbrev Md := List (String × String)

/-- `md.get(k)`. -/
def mdGet (md : Md) (k : String) : Option String :=
  (md.find? (fun p => p.1 = k)).map (fun p => p.2)

/-- `_make_keywords` (src/app.py lines 84-103). -/
def makeKeywords (title summary : Option String) (metadataList : List Md) : List String :=
  let toks :=
    (match title with
     | some t => if pyTruthy t then findAlnumRuns (strLower t) else []
     | none => []) ++
    (match summary with
     | some t => if pyTruthy t then findAlnumRuns (strLower t) else []
     | none => []) ++
    (match metadataList with
     | [] => []
     | md :: _ =>
       ["Sector", "Geographical coverage", "Dataset type"].flatMap fun k =>
         match mdGet md k with
         | some v => if pyTruthy v then findAlnumRuns (strLower v) else []
         | none => [])
  let kws := toks.foldl (fun acc t =>
      if listHasStr STOPWORDS t || t.length ≤ 2 then acc
      else if t.data.all Char.isDigit && t.length ≠ 4 then acc
      else if listHasStr acc t then acc
      else acc ++ [t]) []
  (kws.map (fun w => pyStrip (pyReplaceChar '_' " " w))).take 25

example : makeKeywords (some "Crime Data of the City") none [] = ["crime", "city"] := by decide
example : makeKeywords (some "x 1999 12 2009 2021") none [] = ["1999", "2021"] := by decide

/-! ### The markup tree (the BeautifulSoup fragment the source queries) -/

/-- A parsed markup node: an element with a tag name, attributes and
children, or a text node. -/
inductive Node where
  | elem (tag : String) (attrs : List (String × String)) (children : List Node)
  | text (s : String)

/-- A parsed document: the top-level nodes. -/
abbrev Soup := List Node

/-- Attribute lookup on an element (`tag.get(attr)` / `tag[attr]`). -/
def Node.attrGet : Node → String → Option String
  | .elem _ attrs _, k => (attrs.find? (fun p => p.1 = k)).map (fun p => p.2)
  | .text _, _ => none

mutual

/-- A node followed by all its descendants, in document order. -/
def nodeDesc : Node → List Node
  | .elem t a cs => .elem t a cs :: soupDesc cs
  | .text s => [.text s]

/-- All nodes of a forest with their descendants, in document order
(the iteration order of `soup.find_all(...)`). -/
def soupDesc : List Node → List Node
  | [] => []
  | n :: ns => nodeDesc n ++ soupDesc ns

end

mutual

/-- The descendant text-node contents of one node, in document order. -/
def nodeTexts : Node → List String
  | .elem _ _ cs => soupTexts cs
  | .text s => [s]

/-- The descendant text-node contents of a forest. -/
def soupTexts : List Node → List String
  | [] => []
  | n :: ns => nodeTexts n ++ soupTexts ns

end

/-- `tag.get_text(strip=True)`: each descendant string stripped, empties
dropped, joined without a separator. -/
def getTextStrip (n : Node) : String :=
  joinWith "" (((nodeTexts n).map pyStrip).filter pyTruthy)

/-- `tag.get_text(sep)`: the raw descendant strings joined with `sep`. -/
def getTextSep (sep : String) (n : Node) : String := joinWith sep (nodeTexts n)

/-- `tag.string`: the contents of the unique text child, recursing through
a unique element child; `None` otherwise. -/
def nodeString : Node → Option String
  | .elem _ _ [.text s] => some s
  | .elem _ _ [.elem t a cs] => nodeString (.elem t a cs)
  | _ => none

/-- The children of a node (descendant search scope of `tag.find_all`). -/
def Node.childrenOf : Node → List Node
  | .elem _ _ cs => cs
  | .text _ => []

/-- Does the element's tag equal `t`? -/
def Node.isTag (n : Node) (t : String) : Bool :=
  match n with
  | .elem tg _ _ => tg = t
  | .text _ => false

/-- Is the node an element? (`find_all(True)`). -/
def Node.isElem : Node → Bool
  | .elem _ _ _ => true
  | .text _ => false

/-- Does the element carry a class attribute matched by a case-insensitive
alternation of the plain words `pats`? (how the source's
`class_=re.compile(..., re.I)` filters match). -/
def Node.classMatches (n : Node) (pats : List String) : Bool :=
  match n.attrGet "class" with
  | some cv => containsAnyCI cv pats
  | none => false

/-! ### `urllib.parse` (the fragment the source uses) -/

/-- A character allowed in a URL scheme. -/
def isSchemeChar (c : Char) : Bool := c.isAlphanum || c = '+' || c = '-' || c = '.'

/-- Split `scheme:rest` when the text up to the first `:` is a valid scheme. -/
def splitSchemeGo (acc : List Char) : List Char → Option (List Char × List Char)
  | [] => none
  | ':' :: rest => some (acc.reverse, rest)
  | c :: rest => if isSchemeChar c then splitSchemeGo (c :: acc) rest else none

/-- The `(scheme, remainder)` decomposition used by `urlparse`: a scheme is
present when a `:` is preceded by a nonempty run of scheme characters
starting with a letter; the scheme is lower-cased.  Otherwise the scheme is
empty and the remainder is the whole text. -/
def splitScheme (u : String) : String × String :=
  match splitSchemeGo [] u.data with
  | some (sch, rest) =>
    (match sch with
     | c :: _ => if c.isAlpha then (strLower (String.mk sch), String.mk rest) else ("", u)
     | [] => ("", u))
  | none => ("", u)

/-- The netloc of the remainder after the scheme: present only after `//`,
extending to the first `/`, `?` or `#`. -/
def netlocOf (rest : String) : String :=
  if isHeadSeq ['/', '/'] rest.data then
    String.mk ((rest.data.drop 2).takeWhile (fun c => c ≠ '/' && c ≠ '?' && c ≠ '#'))
  else ""

/-- Models `urlparse(u).hostname` for non-bracketed hosts (the only kind
this program meets): the netloc with any user-info (up to the last `@`)
removed and any `:port` dropped, lower-cased; `None` when empty. -/
def hostnameOf (u : String) : Option String :=
  let netloc := netlocOf (splitScheme u).2
  let hostinfo := (netloc.data.reverse.takeWhile (fun c => c ≠ '@')).reverse
  let host := hostinfo.takeWhile (fun c => c ≠ ':')
  if host.isEmpty then none else some (strLower (String.mk host))

/-- The characters of `path` up to and including its last `/` (empty when
`path` has no slash). -/
def upToLastSlash (path : List Char) : List Char :=
  (path.reverse.dropWhile (fun c => c ≠ '/')).reverse

/-- Models `urllib.parse.urljoin` for the joins this program performs: an
empty link keeps the base; a link carrying its own scheme is taken as is; a
protocol-relative link takes the base's scheme; an absolute path replaces
the base's path; any other link replaces the last segment of the base's
path (query and fragment of the base are dropped).  Dot-segment
normalisation, which none of the embedded pages exercise, is not
modelled. -/
def urljoin (base url : String) : String :=
  if url = "" then base
  else if (splitScheme url).1 ≠ "" then url
  else if isHeadSeq ['/', '/'] url.data then (splitScheme base).1 ++ ":" ++ url
  else
    let bsch := (splitScheme base).1
    let brest := (splitScheme base).2
    let schemePart := if bsch = "" then "" else bsch ++ ":"
    if isHeadSeq ['/', '/'] brest.data then
      let netloc := (brest.data.drop 2).takeWhile (fun c => c ≠ '/' && c ≠ '?' && c ≠ '#')
      let path := ((brest.data.drop 2).drop netloc.length).takeWhile (fun c => c ≠ '?' && c ≠ '#')
      let newPath :=
        if isHeadSeq ['/'] url.data then url.data
        else if path.isEmpty then '/' :: url.data
        else upToLastSlash path ++ url.data
      schemePart ++ "//" ++ String.mk netloc ++ String.mk newPath
    else
      let path := brest.data.takeWhile (fun c => c ≠ '?' && c ≠ '#')
      let newPath :=
        if isHeadSeq ['/'] url.data then url.data
        else upToLastSlash path ++ url.data
      schemePart ++ String.mk newPath

example : urljoin "http://a.com/b/c" "d.csv" = "http://a.com/b/d.csv" := by decide
example : urljoin "http://a.com/b/c" "http://x.org/f.zip" = "http://x.org/f.zip" := by decide
example : urljoin "http://a.com/b/c?q=1" "/d" = "http://a.com/d" := by decide
example : urljoin "http://a.com" "d" = "http://a.com/d" := by decide
example : urljoin "http://a.com/b" "" = "http://a.com/b" := by decide
example : hostnameOf "https://www.Kaggle.com/datasets/x" = some "www.kaggle.com" := by decide
example : hostnameOf "http://user@host.org:8080/p" = some "host.org" := by decide
example : hostnameOf "" = none := by decide
example : hostnameOf "nourl" = none := by decide

/-! ### Distributions and the discovery scanners
(`_extract_distributions_from_soup`, `_extract_aikosh_specific`,
`_explore_kaggle_for_files`, `_extract_kaggle_specific`,
src/app.py lines 106-263) -/

/-- One discovered distribution: the dict
`{"dcat:accessURL": ..., "dcat:mediaType": ..., "dct:format": ...,
("dct:title": ...)?}`. -/
structure Distribution where
  accessURL : String
  mediaType : String
  format : String
  title : Option String
deriving DecidableEq, Repr

/-- The `found` dict of the generic scanner: an insertion-ordered mapping
from access URL to distribution. -/
abbrev FoundMap := List (String × Distribution)

/-- Dict lookup. -/
def alGet (m : FoundMap) (k : String) : Option Distribution :=
  (m.find? (fun p => p.1 = k)).map (fun p => p.2)

/-- Dict assignment `found[k] = v`: replaces the value in place when the
key exists (keeping its insertion position), else appends. -/
def alSet : FoundMap → String → Distribution → FoundMap
  | [], k, v => [(k, v)]
  | (k1, v1) :: rest, k, v =>
    if k1 = k then (k1, v) :: rest else (k1, v1) :: alSet rest k v

/-- `found.setdefault(k, v)`: inserts only when the key is absent. -/
def alSetdefault (m : FoundMap) (k : String) (v : Distribution) : FoundMap :=
  if (alGet m k).isSome then m else m ++ [(k, v)]

/-- The extension allow-list of the generic scanner. -/
def genericExts : List String :=
  ["csv", "zip", "json", "geojson", "xlsx", "xls", "parquet", "xml", "tgz", "tar", "gz"]

/-- A match of `\.(e1|...|en)(?:$|t1|...|tm)` anchored at the current
position: the position holds a dot, some listed extension follows it
case-insensitively, and then the string ends or a terminator character
follows.  Alternatives are tried in list order, reproducing the regex's
priority. -/
def extAltAt (exts : List String) (terms : List Char) (l : List Char) : Option String :=
  match l with
  | '.' :: rest =>
    exts.find? fun e =>
      isHeadSeqCI e.data rest &&
      (match rest.drop e.length with
       | [] => true
       | c :: _ => terms.any (fun t => t = c))
  | _ => none

/-- `pattern.search`: the leftmost position where `extAltAt` matches,
returning the (lower-case) extension. -/
def extListSearch (exts : List String) (terms : List Char) : List Char → Option String
  | [] => none
  | l@(_ :: rest) =>
    match extAltAt exts terms l with
    | some e => some e
    | none => extListSearch exts terms rest

/-- The length consumed by a match of `extAltAt` (the terminator character,
when present, is consumed by the regex group). -/
def extMatchLen (exts : List String) (terms : List Char) (l : List Char) : Option Nat :=
  match extAltAt exts terms l with
  | some e =>
    match l.drop (1 + e.length) with
    | c :: _ => if terms.any (fun t => t = c) then some (1 + e.length + 1) else some (1 + e.length)
    | [] => some (1 + e.length)
  | none => none

/-- The character class `[^\s'\"<>]` of the URL-shaped patterns. -/
def isUrlChar (c : Char) : Bool :=
  !isPySpace c && c ≠ '\'' && c ≠ '"' && c ≠ '<' && c ≠ '>'

/-- A match of `https?://[^\s'\"<>]+` anchored at the current position
(case-sensitive, as compiled at src/app.py line 149); the optional `s` is
tried first, as the regex does. -/
def httpMatchAt (l : List Char) : Option (List Char) :=
  if isHeadSeq "https://".data l ∧ ¬((l.drop 8).takeWhile isUrlChar).isEmpty then
    some ("https://".data ++ (l.drop 8).takeWhile isUrlChar)
  else if isHeadSeq "http://".data l ∧ ¬((l.drop 7).takeWhile isUrlChar).isEmpty then
    some ("http://".data ++ (l.drop 7).takeWhile isUrlChar)
  else none

/-- `re.search(r"https?://[^\s'\"<>]+", snippet)`. -/
def urlLikeSearch : List Char → Option String
  | [] => none
  | l@(_ :: rest) =>
    match httpMatchAt l with
    | some r => some (String.mk r)
    | none => urlLikeSearch rest

/-- HTML-fallback distribution pointing at the page itself
(src/app.py lines 158-163). -/
def fallbackDist (base : String) : Distribution := ⟨base, "text/html", "HTML", none⟩

/-- The insertion shared by the anchor and attribute scans
(src/app.py lines 117-126 and 134-142): resolve the reference, and when
the resolved URL matches the extension pattern, write the classified
record into the dict with plain assignment (overwriting any existing
entry). -/
def genericInsert (base : String) (m : FoundMap) (href : String) (tOpt : Option String) :
    FoundMap :=
  match extListSearch genericExts ['?', '#'] (urljoin base href).data with
  | some ext =>
    alSet m (urljoin base href)
      ⟨urljoin base href,
       (extMediaGet ext).getD (guessMediaTypeFromUrl (urljoin base href)), strUpper ext, tOpt⟩
  | none => m

/-- One step of the anchor scan (src/app.py lines 113-126): a hyperlink
with a nonempty stripped `href` whose resolved URL matches the extension
pattern is written into the dict (overwriting any existing entry), with
the anchor's visible text as title when nonempty. -/
def anchorFold (base : String) (m : FoundMap) (n : Node) : FoundMap :=
  match n with
  | .elem "a" attrs cs =>
    match (attrs.find? (fun p => p.1 = "href")).map (fun p => p.2) with
    | some hrefRaw =>
      if ¬ pyTruthy (pyStrip hrefRaw) then m
      else
        genericInsert base m (pyStrip hrefRaw)
          (if pyTruthy (getTextStrip (.elem "a" attrs cs)) then
            some (getTextStrip (.elem "a" attrs cs))
          else none)
    | none => m
  | _ => m

/-- The download-hint attributes of the generic scanner. -/
def dataAttrNames : List String :=
  ["data-download", "data-href", "data-url", "data-resource", "data-link"]

/-- One step of the attribute scan (src/app.py lines 129-142): every
element's download-hint attributes, in order, inserted with plain dict
assignment (no title). -/
def attrFold (base : String) (m : FoundMap) (n : Node) : FoundMap :=
  match n with
  | .elem _ attrs _ =>
    dataAttrNames.foldl (fun m1 a =>
      match (attrs.find? (fun p => p.1 = a)).map (fun p => p.2) with
      | some href => if ¬ pyTruthy href then m1 else genericInsert base m1 href none
      | none => m1) m
  | .text _ => m

/-- The inline-script scan over one script text (src/app.py lines 144-156):
walk `finditer` matches of the extension pattern; around each match take
the 100-character window on both sides, search it for an absolute URL, and
`setdefault` that URL into the dict.  `done` holds the already-scanned
characters reversed; the fuel starts above the text length, which bounds
the number of steps. -/
def scriptScanGo : Nat → List Char → List Char → FoundMap → FoundMap
  | 0, _, _, m => m
  | Nat.succ fuel, done, todo, m =>
    match todo with
    | [] => m
    | c :: rest =>
      match extMatchLen genericExts ['?', '#'] todo with
      | some len =>
        let snippet := (done.take 100).reverse ++ todo.take (len + 100)
        let m2 :=
          match urlLikeSearch snippet with
          | some full =>
            alSetdefault m full
              ⟨full, guessMediaTypeFromUrl full, uppercaseExtFromUrl full, none⟩
          | none => m
        scriptScanGo fuel ((todo.take len).reverse ++ done) (todo.drop len) m2
      | none => scriptScanGo fuel (c :: done) rest m

/-- The inline-script scan of one script's text. -/
def scriptScanDists (m : FoundMap) (text : String) : FoundMap :=
  scriptScanGo (text.data.length + 1) [] text.data m

/-- One step of the script scan over the document. -/
def scriptFold (m : FoundMap) (n : Node) : FoundMap :=
  if n.isTag "script" then scriptScanDists m ((nodeString n).getD "") else m

/-- The `found` dict after the three generic passes
(src/app.py lines 112-156). -/
def genericFoundMap (soup : Soup) (base : String) : FoundMap :=
  let m1 := (soupDesc soup).foldl (anchorFold base) []
  let m2 := (soupDesc soup).foldl (attrFold base) m1
  (soupDesc soup).foldl scriptFold m2

/-- Key order used by `sorted(found.keys())`. -/
def alKeyLe (a b : String × Distribution) : Prop := strLe a.1 b.1 = true

instance : DecidableRel alKeyLe :=
  fun a b => inferInstanceAs (Decidable (strLe a.1 b.1 = true))

/-- The `found` dict with the fallback applied (src/app.py lines 158-163). -/
def foundOrFallback (soup : Soup) (base : String) : FoundMap :=
  if (genericFoundMap soup base).isEmpty then [(base, fallbackDist base)]
  else genericFoundMap soup base

/-- `_extract_distributions_from_soup` on a present soup
(src/app.py lines 106-164): the three passes, the fallback when nothing
was found, and the values listed in lexicographic key order. -/
def extractDistributionsFromSoup (soup : Soup) (base : String) : List Distribution :=
  (List.insertionSort alKeyLe (foundOrFallback soup base)).map (fun p => p.2)

/-- Anchor-to-distribution of the site-specific container passes
(src/app.py lines 171-178 and 231-238): every hyperlink inside the
container, resolved after stripping, classified by the URL guessers, the
visible text as title when nonempty. -/
def containerAnchorDists (base : String) (sec : Node) : List Distribution :=
  (soupDesc sec.childrenOf).flatMap fun a =>
    match a with
    | .elem "a" attrs cs =>
      match (attrs.find? (fun p => p.1 = "href")).map (fun p => p.2) with
      | some href =>
        let full := urljoin base (pyStrip href)
        let t := getTextStrip (.elem "a" attrs cs)
        [⟨full, guessMediaTypeFromUrl full, uppercaseExtFromUrl full,
          if pyTruthy t then some t else none⟩]
      | none => []
    | _ => []

/-- First-wins deduplication by truthy access URL, the `seen`/`out` idiom
repeated at src/app.py lines 188-194, 256-262 and 431-437. -/
def dedupByUrlGo (seen : List String) : List Distribution → List Distribution
  | [] => []
  | d :: ds =>
    if pyTruthy d.accessURL && !listHasStr seen d.accessURL then
      d :: dedupByUrlGo (d.accessURL :: seen) ds
    else dedupByUrlGo seen ds

/-- First-wins deduplication by access URL. -/
def dedupByUrl (ds : List Distribution) : List Distribution := dedupByUrlGo [] ds

/-- `_extract_aikosh_specific` (src/app.py lines 166-195). -/
def extractAikoshSpecific (soup : Soup) (base : String) : List Distribution :=
  let dists1 := (soupDesc soup).flatMap fun sec =>
    if (sec.isTag "section" || sec.isTag "div")
        && sec.classMatches ["resource", "download", "files", "dataset"] then
      containerAnchorDists base sec
    else []
  let dists2 := (soupDesc soup).flatMap fun el =>
    if el.isElem && el.classMatches ["dataset-metadata", "download", "resource"] then
      ["href", "data-download", "data-url", "data-href"].filterMap fun a =>
        match el.attrGet a with
        | some v =>
          let full := urljoin base v
          some ⟨full, guessMediaTypeFromUrl full, uppercaseExtFromUrl full, none⟩
        | none => none
    else []
  dedupByUrl (dists1 ++ dists2)

/-- The kaggle extension list of `_explore_kaggle_for_files`. -/
def kaggleExts : List String := ["csv", "zip", "json", "xlsx", "parquet", "geojson"]

/-- The query character class `[^'\"\\s<>]` of the kaggle URL pattern.
The pattern is a raw string, so `\\s` stands for a literal backslash and a
literal `s` — whitespace is allowed here while `s` and backslash are
not. -/
def isQueryChar (c : Char) : Bool :=
  c ≠ '\'' && c ≠ '"' && c ≠ '\\' && c ≠ 's' && c ≠ '<' && c ≠ '>'

/-- Greedy backtracking of `[^\s'\"<>]+\.(ext…)`: the largest split `L` of
the maximal run such that a dot sits at offset `L` and a listed extension
follows it case-insensitively (alternatives in list order). -/
def bestDotSplit (exts : List String) (rest : List Char) : Nat → Option (Nat × String)
  | 0 => none
  | Nat.succ n =>
    (match rest.drop (Nat.succ n) with
     | '.' :: after =>
       match exts.find? (fun e => isHeadSeqCI e.data after) with
       | some e => some (Nat.succ n, e)
       | none => bestDotSplit exts rest n
     | _ => bestDotSplit exts rest n)

/-- A match of the kaggle URL pattern
`https?://[^\s'\"<>]+\.(csv|zip|json|xlsx|parquet|geojson)(?:\?[^'\"\\s<>]*)?`
anchored at the current position (compiled with `re.I`); `withQuery` is
false for the variant at src/app.py line 249 that lacks the query group.
Returns the whole match and its length. -/
def patATryAfter (withQuery : Bool) (plen : Nat) (l : List Char) : Option (String × Nat) :=
  let rest := l.drop plen
  let runLen := (rest.takeWhile isUrlChar).length
  match bestDotSplit kaggleExts rest runLen with
  | some (lsplit, e) =>
    let core := plen + lsplit + 1 + e.length
    let qlen :=
      if withQuery then
        match l.drop core with
        | '?' :: qr => 1 + (qr.takeWhile isQueryChar).length
        | _ => 0
      else 0
    some (String.mk (l.take (core + qlen)), core + qlen)
  | none => none

/-- The kaggle URL pattern anchored at the current position. -/
def patAMatchAt (withQuery : Bool) (l : List Char) : Option (String × Nat) :=
  if isHeadSeqCI "https://".data l then patATryAfter withQuery 8 l
  else if isHeadSeqCI "http://".data l then patATryAfter withQuery 7 l
  else none

/-- `finditer` of the kaggle URL pattern: all non-overlapping matches left
to right. -/
def patAScan (withQuery : Bool) : Nat → List Char → List String → List String
  | 0, _, acc => acc
  | Nat.succ fuel, l, acc =>
    match l with
    | [] => acc
    | _ :: rest =>
      match patAMatchAt withQuery l with
      | some (g, len) => patAScan withQuery fuel (l.drop len) (acc ++ [g])
      | none => patAScan withQuery fuel rest acc

/-- All matches of the kaggle URL pattern in a text. -/
def patAAll (withQuery : Bool) (text : String) : List String :=
  patAScan withQuery (text.data.length + 1) text.data []

/-- A match of `"key"\s*:\s*"([^\"]+)"` (case-insensitive) anchored at the
current position, returning the captured value and the match length. -/
def patBMatchAt (key : List Char) (l : List Char) : Option (String × Nat) :=
  match l with
  | '"' :: rest =>
    if isHeadSeqCI key rest then
      match rest.drop key.length with
      | '"' :: r2 =>
        let ws1 := (r2.takeWhile isPySpace).length
        (match r2.drop ws1 with
         | ':' :: r4 =>
           let ws2 := (r4.takeWhile isPySpace).length
           (match r4.drop ws2 with
            | '"' :: r6 =>
              let content := r6.takeWhile (fun c => c ≠ '"')
              if content.isEmpty then none
              else
                match r6.drop content.length with
                | '"' :: _ =>
                  some (String.mk content,
                    1 + key.length + 1 + ws1 + 1 + ws2 + 1 + content.length + 1)
                | _ => none
            | _ => none)
         | _ => none)
      | _ => none
    else none
  | _ => none

/-- `finditer` of the quoted key/value pattern. -/
def patBScan (key : List Char) : Nat → List Char → List String → List String
  | 0, _, acc => acc
  | Nat.succ fuel, l, acc =>
    match l with
    | [] => acc
    | _ :: rest =>
      match patBMatchAt key l with
      | some (g, len) => patBScan key fuel (l.drop len) (acc ++ [g])
      | none => patBScan key fuel rest acc

/-- All captures of the quoted key/value pattern in a text. -/
def patBAll (key : String) (text : String) : List String :=
  patBScan key.data (text.data.length + 1) text.data []

/-- Prefix match where a `.` in the pattern matches any character (the
un-escaped dots of the cloud-host alternation), case-insensitively. -/
def isHeadPat : List Char → List Char → Bool
  | [], _ => true
  | _ :: _, [] => false
  | p :: ps, c :: cs => (p = '.' || lowerChar p = lowerChar c) && isHeadPat ps cs

/-- Substring search for such a wildcard pattern. -/
def listHasPat (pat : List Char) : List Char → Bool
  | [] => pat.isEmpty
  | l@(_ :: rest) => isHeadPat pat l || listHasPat pat rest

/-- `re.search(r"(kaggleusercontent|storage.googleapis|s3.amazonaws|azureedge)", u, re.I)`. -/
def cloudHostMatch (u : String) : Bool :=
  ["kaggleusercontent", "storage.googleapis", "s3.amazonaws", "azureedge"].any
    (fun p => listHasPat p.data u.data)

/-- The quoted keys probed by the kaggle explorer. -/
def kaggleKeyNames : List String :=
  ["downloadUrl", "fileUrl", "url", "path", "rawUrl", "archiveUrl"]

/-- First-wins deduplication of strings (modelling collection into a
`set`, whose order is immaterial because the result is sorted). -/
def dedupStrGo (seen : List String) : List String → List String
  | [] => []
  | s :: ss =>
    if listHasStr seen s then dedupStrGo seen ss else s :: dedupStrGo (s :: seen) ss

/-- String order used by `sorted`. -/
def strLeP (a b : String) : Prop := strLe a b = true

instance : DecidableRel strLeP := fun a b => inferInstanceAs (Decidable (strLe a b = true))

/-- `_explore_kaggle_for_files` (src/app.py lines 198-224). -/
def exploreKaggleForFiles (soup : Soup) (base : String) : List String :=
  let scripts := (soupDesc soup).filter (fun n => n.isTag "script")
  let urls1 := scripts.flatMap fun sc =>
    let text := pyOrD (pyOr (nodeString sc) (some (getTextSep " " sc))) ""
    patAAll true text ++
      kaggleKeyNames.flatMap fun k =>
        (patBAll k text).filter fun cand =>
          pyTruthy cand && isHeadSeq "http".data cand.data
            && (extListSearch kaggleExts ['?'] cand.data).isSome
  let urls2 := (soupDesc soup).flatMap fun a =>
    match a with
    | .elem "a" attrs _ =>
      match (attrs.find? (fun p => p.1 = "href")).map (fun p => p.2) with
      | some hrefRaw =>
        let href := pyStrip hrefRaw
        if ¬ pyTruthy href then []
        else
          let full := urljoin base href
          if cloudHostMatch full && (extListSearch kaggleExts ['?'] full.data).isSome then
            [full]
          else []
      | none => []
    | _ => []
  let urls3 := scripts.flatMap fun sc =>
    match sc.attrGet "type" with
    | some ty =>
      if pyTruthy ty && containsSub ty "application/json" then
        patAAll true ((nodeString sc).getD "")
      else []
    | none => []
  ((List.insertionSort strLeP (dedupStrGo [] (urls1 ++ urls2 ++ urls3)))).map (urljoin base)

/-- `_extract_kaggle_specific` (src/app.py lines 226-263). -/
def extractKaggleSpecific (soup : Soup) (base : String) : List Distribution :=
  let dists1 := (soupDesc soup).flatMap fun div =>
    if div.isElem
        && div.classMatches ["file", "resource", "download", "data-file", "dataset-file", "files"] then
      containerAnchorDists base div
    else []
  let dists2 := (exploreKaggleForFiles soup base).map fun u =>
    (⟨u, guessMediaTypeFromUrl u, uppercaseExtFromUrl u, none⟩ : Distribution)
  let dists3 := (soupDesc soup).flatMap fun sc =>
    if sc.isTag "script" then
      let txt := (nodeString sc).getD ""
      if pyTruthy txt && containsSub (strLower txt) "kaggle" then
        (patAAll false txt).map fun u =>
          (⟨u, guessMediaTypeFromUrl u, uppercaseExtFromUrl u, none⟩ : Distribution)
      else []
    else []
  dedupByUrl (dists1 ++ dists2 ++ dists3)

example :
    extractDistributionsFromSoup
      [.elem "body" []
        [.elem "a" [("href", "http://x.com/b.csv")] [.text "B"],
         .elem "a" [("href", "http://x.com/a.zip")] []]]
      "http://x.com/page"
    = [⟨"http://x.com/a.zip", "application/zip", "ZIP", none⟩,
       ⟨"http://x.com/b.csv", "text/csv", "CSV", some "B"⟩] := by decide

example :
    extractDistributionsFromSoup [.elem "body" [] [.text "no links"]] "http://x.com/page"
    = [fallbackDist "http://x.com/page"] := by decide

example :
    genericFoundMap
      [.elem "script" [] [.text "var u = 'https://cdn.x.com/data/file.csv?v=1';"]]
      "http://x.com/page"
    = [("https://cdn.x.com/data/file.csv?v=1",
        ⟨"https://cdn.x.com/data/file.csv?v=1", "text/csv", "CSV", none⟩)] := by decide

/-! ### The DCAT assembler (`convert_to_dcat_dynamic`,
src/app.py lines 322-471) -/

/-- The fields of the scrape result consumed by the assembler: the keys
`Title`, `title`, `About Dataset`, `Summary`, `Description`,
`DATASET METADATA` and `Source` of `result_json`. -/
structure RawJson where
  titleKey : Option String
  titleLow : Option String
  aboutDataset : Option String
  summary : Option String
  description : Option String
  metadataList : List Md
  source : Option String
deriving DecidableEq, Repr

/-- A scrape result with no populated fields. -/
def rjEmpty : RawJson := ⟨none, none, none, none, none, [], none⟩

/-- Site-variant selection (src/app.py lines 323-336): an explicit truthy
hint wins; else substring checks on the lowered URL; else on the
hostname. -/
def computeSiteHint (siteHint : Option String) (url : String) : String :=
  if optTruthy siteHint then siteHint.getD ""
  else
    let low := strLower url
    if containsSub low "aikosh" || containsSub low "indiaai" then "aikosh"
    else if containsSub low "kaggle" then "kaggle"
    else
      let hn := strLower (pyOrD (hostnameOf url) "")
      if containsSub hn "kaggle" then "kaggle"
      else if containsSub hn "indiaai" || containsSub hn "aikosh" then "aikosh"
      else "unknown"

/-- The aikosh `issued` search (src/app.py lines 371-386): first a date
key parsed through the date normaliser (a bare year is padded to
`-01-01`), else a year key through the year extractor. -/
def aikoshIssued (md : Md) : Option String :=
  let i1 := ["Date & Time", "Date", "Published", "Published on", "Uploaded on", "Updated"].findSome?
    fun k =>
      match mdGet md k with
      | some v =>
        if pyTruthy v then
          (parseDateFromMetadata v).map (fun m => if m.length > 4 then m else m ++ "-01-01")
        else none
      | none => none
  match i1 with
  | some i => some i
  | none =>
    ["Year range", "Year", "Issued", "Created", "Published"].findSome? fun k =>
      match mdGet md k with
      | some v =>
        if pyTruthy v then (extractYearFromString v).map (fun y => y ++ "-01-01") else none
      | none => none

/-- The non-aikosh `modified` search (src/app.py lines 393-398). -/
def defaultModified (md : Md) : Option String :=
  ["Date & Time", "Date", "Last Updated", "Last modified", "Updated", "Published",
   "Published on"].findSome? fun k =>
    match mdGet md k with
    | some v => if pyTruthy v then parseDateFromMetadata v else none
    | none => none

/-- The non-aikosh `issued` search (src/app.py lines 399-404). -/
def defaultIssued (md : Md) : Option String :=
  ["Year range", "Year", "Issued", "Published", "Created"].findSome? fun k =>
    match mdGet md k with
    | some v =>
      if pyTruthy v then (extractYearFromString v).map (fun y => y ++ "-01-01") else none
    | none => none

/-- The `(issued, modified)` pair before the promotion step
(src/app.py lines 364-404): the aikosh branch never sets `modified` and
forces it to `None`. -/
def computeDatesRaw (site : String) (metadataList : List Md) : Option String × Option String :=
  match metadataList with
  | [] => (none, none)
  | md :: _ =>
    if site = "aikosh" then (aikoshIssued md, none)
    else (defaultIssued md, defaultModified md)

/-- The `(issued, modified)` pair (src/app.py lines 364-409): the final
step promotes a lone `modified` to `issued` for aikosh. -/
def computeDates (site : String) (metadataList : List Md) : Option String × Option String :=
  if site = "aikosh" ∧ ¬ optTruthy (computeDatesRaw site metadataList).1
      ∧ optTruthy (computeDatesRaw site metadataList).2 then
    ((computeDatesRaw site metadataList).2, none)
  else computeDatesRaw site metadataList

/-- The metadata-driven publisher candidate (src/app.py lines 347-360). -/
def mdPublisher (site : String) (metadataList : List Md) : Option String :=
  match metadataList with
  | [] => none
  | md :: _ =>
    if site = "aikosh" then
      pyOr (pyOr (mdGet md "Source organisation") (mdGet md "Author")) (mdGet md "Uploaded by")
    else if site = "kaggle" then
      pyOr (pyOr (mdGet md "Author") (mdGet md "Owner")) (mdGet md "Uploaded by")
    else none

/-- Publisher selection (src/app.py lines 347-362). -/
def computePublisher (site : String) (rj : RawJson) (url : String) : String :=
  if optTruthy (mdPublisher site rj.metadataList) then (mdPublisher site rj.metadataList).getD ""
  else pyOrD (pyOr rj.source (hostnameOf url)) "Unknown"

/-- License selection and the open-government rewrite
(src/app.py lines 411-415). -/
def computeLicense (metadataList : List Md) : Option String :=
  let lv :=
    match metadataList with
    | [] => none
    | md :: _ => pyOr (mdGet md "License") (mdGet md "license")
  if optTruthy lv ∧ containsSub (strLower (lv.getD "")) "open government license" then
    some "Open Government License, India (https://www.data.gov.in/Godl)"
  else lv

/-- The site-specific contribution to discovery (src/app.py lines 419-422). -/
def siteSpecificDists (site : String) (s : Soup) (url : String) : List Distribution :=
  if site = "aikosh" then extractAikoshSpecific s url
  else if site = "kaggle" then extractKaggleSpecific s url
  else []

/-- The raw distribution list before merging (src/app.py lines 417-429):
site-specific scanners first, then the generic scanner; a missing soup
yields the one URL-classified entry. -/
def discoverDistributions (site : String) (soup : Option Soup) (url : String) :
    List Distribution :=
  match soup with
  | some s => siteSpecificDists site s url ++ extractDistributionsFromSoup s url
  | none => [⟨url, guessMediaTypeFromUrl url, uppercaseExtFromUrl url, none⟩]

/-- `has_csv` (src/app.py lines 439-442). -/
def hasCsvDist (ds : List Distribution) : Bool :=
  ds.any fun d => d.mediaType = "text/csv" || strUpper d.format = "CSV"

/-- Is this distribution eligible for the CSV rewrite?
(src/app.py line 446). -/
def promotableDist (d : Distribution) : Bool :=
  containsSub d.accessURL "kaggle.com" && d.mediaType = "text/html"

/-- The in-place rewrite of src/app.py lines 447-448. -/
def promoteDist (d : Distribution) : Distribution :=
  { d with mediaType := "text/csv", format := "CSV" }

/-- Rewrite the first eligible distribution, stopping there
(src/app.py lines 444-449). -/
def promoteFirstDist : List Distribution → List Distribution
  | [] => []
  | d :: ds => if promotableDist d then promoteDist d :: ds else d :: promoteFirstDist ds

/-- The CSV-promotion rule (src/app.py lines 439-449): kaggle variant
only, and only when no merged distribution is already CSV. -/
def promoteCsv (site : String) (ds : List Distribution) : List Distribution :=
  if site = "kaggle" ∧ hasCsvDist ds = false then promoteFirstDist ds else ds

/-- The assembled canonical record: the `dcat:Dataset` object
(src/app.py lines 453-465); optional keys are absent exactly when the
computed value is falsy. -/
structure Dcat where
  title : String
  description : String
  publisher : String
  issued : Option String
  modified : Option String
  license : Option String
  keyword : Option (List String)
  distribution : List Distribution
deriving DecidableEq, Repr

/-- `convert_to_dcat_dynamic` (src/app.py lines 322-471), without the
optional file write. -/
def convertToDcatDynamic (rj : RawJson) (url : String) (soup : Option Soup)
    (siteHint : Option String) : Dcat :=
  let site := computeSiteHint siteHint url
  let title := pyOrD (pyOr rj.titleKey rj.titleLow) "dataset"
  let desc := pyOrD (pyOr (pyOr rj.aboutDataset rj.summary) rj.description) ""
  let publisher := computePublisher site rj url
  let dm := computeDates site rj.metadataList
  let licenseVal := computeLicense rj.metadataList
  let merged := dedupByUrl (discoverDistributions site soup url)
  let promoted := promoteCsv site merged
  let keywords := makeKeywords (some title) rj.summary rj.metadataList
  { title := title
    description := desc
    publisher := publisher
    issued := optKeep dm.1
    modified := optKeep dm.2
    license := optKeep licenseVal
    keyword := if keywords.isEmpty then none else some keywords
    distribution := promoted }

/-! ### The triple-text serializer (`dcat_to_turtle`,
src/app.py lines 266-319) -/

/-- The escaping applied to string literals: `.replace('\"','\\\\\"')`,
which substitutes two backslashes and a quote for each quote. -/
def turtleEscape (s : String) : String := pyReplaceChar '"' "\\\\\"" s

/-- Does the line end in `" ;"`? -/
def endsWithSemi (s : String) : Bool := isHeadSeq [';', ' '] s.data.reverse

/-- `lines[-1][:-2] + ' .'`. -/
def dropSemiAddDot (s : String) : String :=
  String.mk (s.data.take (s.data.length - 2)) ++ " ."

/-- The final terminator fix-up (src/app.py lines 317-318). -/
def fixLastLine (ls : List String) : List String :=
  match ls.getLast? with
  | some last => if endsWithSemi last then ls.dropLast ++ [dropSemiAddDot last] else ls
  | none => ls

/-- `dcat_to_turtle` (src/app.py lines 266-319); the argument is the
record under the `dcat:Dataset` key, `none` when that key is missing. -/
def dcatToTurtle (dcat : Option Dcat) : String :=
  match dcat with
  | none => "# No DCAT data available"
  | some ds =>
    let headerLines :=
      ["@prefix dcat: <https://www.w3.org/ns/dcat#> .",
       "@prefix dct: <http://purl.org/dc/terms/> .",
       "@prefix foaf: <http://xmlns.com/foaf/0.1/> .",
       "",
       "_:dataset"]
    let titleLines :=
      if pyTruthy ds.title then ["    dct:title \"" ++ turtleEscape ds.title ++ "\" ;"] else []
    let descLines :=
      if pyTruthy ds.description then
        ["    dct:description \"" ++ pyReplaceChar '\n' " " (turtleEscape ds.description) ++ "\" ;"]
      else []
    let pubLines :=
      if pyTruthy ds.publisher then
        ["    dct:publisher [ foaf:name \"" ++ ds.publisher ++ "\" ] ;"]
      else []
    let issuedLines :=
      match ds.issued with
      | some i => if pyTruthy i then ["    dct:issued \"" ++ i ++ "\" ;"] else []
      | none => []
    let modifiedLines :=
      match ds.modified with
      | some m => if pyTruthy m then ["    dct:modified \"" ++ m ++ "\" ;"] else []
      | none => []
    let licenseLines :=
      match ds.license with
      | some l => if pyTruthy l then ["    dct:license <" ++ l ++ "> ;"] else []
      | none => []
    let kwLines :=
      match ds.keyword with
      | some kws => kws.map (fun k => "    dcat:keyword \"" ++ k ++ "\" ;")
      | none => []
    let distLines := ds.distribution.flatMap fun d =>
      ["    dcat:distribution ["]
      ++ (match d.title with
          | some t =>
            if pyTruthy t then ["        dct:title \"" ++ turtleEscape t ++ "\" ;"] else []
          | none => [])
      ++ (if pyTruthy d.accessURL then ["        dcat:accessURL <" ++ d.accessURL ++ "> ;"] else [])
      ++ (if pyTruthy d.mediaType then ["        dcat:mediaType \"" ++ d.mediaType ++ "\" ;"] else [])
      ++ (if pyTruthy d.format then ["        dct:format \"" ++ d.format ++ "\" "] else [])
      ++ ["    ] ;"]
    let allLines := headerLines ++ titleLines ++ descLines ++ pubLines ++ issuedLines
      ++ modifiedLines ++ licenseLines ++ kwLines ++ distLines
    joinWith "\n" (fixLastLine allLines)

/-- Modelled from the spec: the round-trip side of the triple-text claim
needs the reader of a quoted string literal, which the repository does not
contain.  Standard escaped-literal reading: a backslash makes the next
character literal, an unescaped double quote ends the literal; returns the
decoded contents and the remaining text. -/
def parseStringLitGo (acc : List Char) : List Char → Option (String × List Char)
  | [] => none
  | '\\' :: c :: rest => parseStringLitGo (c :: acc) rest
  | '\\' :: [] => none
  | '"' :: rest => some (String.mk acc.reverse, rest)
  | c :: rest => parseStringLitGo (c :: acc) rest

/-- Modelled from the spec: parse a string literal starting right after
its opening quote. -/
def parseStringLiteral (l : List Char) : Option (String × List Char) :=
  parseStringLitGo [] l

example :
    (convertToDcatDynamic rjEmpty "https://www.kaggle.com/datasets/foo" (some []) none).distribution
    = [⟨"https://www.kaggle.com/datasets/foo", "text/csv", "CSV", none⟩] := by decide

example :
    (convertToDcatDynamic rjEmpty "http://ex.org/p" (some []) none)
    = ⟨"dataset", "", "ex.org", none, none, none, none,
       [⟨"http://ex.org/p", "text/html", "HTML", none⟩]⟩ := by decide

example :
    (convertToDcatDynamic rjEmpty "" none none).distribution = [] := by decide

example :
    parseStringLiteral ("a\\\\\"b\" ;").data = some ("a\\", "b\" ;".data) := by decide

/-! ### Order facts and basic lemmas -/

theorem charListLe_trans : ∀ {a b c : List Char},
    charListLe a b = true → charListLe b c = true → charListLe a c = true
  | [], _, _, _, _ => rfl
  | _ :: _, [], _, h1, _ => by simp [charListLe] at h1
  | _ :: _, _ :: _, [], _, h2 => by simp [charListLe] at h2
  | x :: xs, y :: ys, z :: zs, h1, h2 => by
    simp only [charListLe] at h1 h2 ⊢
    rcases Nat.lt_trichotomy x.toNat y.toNat with hxy | hxy | hxy
    · rcases Nat.lt_trichotomy y.toNat z.toNat with hyz | hyz | hyz
      · simp [show x.toNat < z.toNat by omega]
      · simp [show x.toNat < z.toNat by omega]
      · rw [if_neg (by omega), if_pos hyz] at h2; exact absurd h2 (by simp)
    · rw [if_neg (by omega), if_neg (by omega)] at h1
      rcases Nat.lt_trichotomy y.toNat z.toNat with hyz | hyz | hyz
      · simp [show x.toNat < z.toNat by omega]
      · rw [if_neg (by omega), if_neg (by omega)] at h2
        rw [if_neg (by omega), if_neg (by omega)]
        exact charListLe_trans h1 h2
      · rw [if_neg (by omega), if_pos hyz] at h2; exact absurd h2 (by simp)
    · rw [if_neg (by omega), if_pos hxy] at h1; exact absurd h1 (by simp)

theorem charListLe_total (a b : List Char) : charListLe a b = true ∨ charListLe b a = true := by
  induction a generalizing b with
  | nil => left; rfl
  | cons x xs ih =>
    cases b with
    | nil => right; rfl
    | cons y ys =>
      simp only [charListLe]
      rcases Nat.lt_trichotomy x.toNat y.toNat with h | h | h
      · left; simp [h]
      · rcases ih ys with h3 | h3
        · left; rw [if_neg (by omega), if_neg (by omega)]; exact h3
        · right; rw [if_neg (by omega), if_neg (by omega)]; exact h3
      · right; simp [h]

instance : IsTotal (String × Distribution) alKeyLe :=
  ⟨fun a b => charListLe_total a.1.data b.1.data⟩

instance : IsTrans (String × Distribution) alKeyLe :=
  ⟨fun _ _ _ h1 h2 => charListLe_trans h1 h2⟩

instance : IsTotal String strLeP := ⟨fun a b => charListLe_total a.data b.data⟩

instance : IsTrans String strLeP := ⟨fun _ _ _ h1 h2 => charListLe_trans h1 h2⟩

theorem pyTruthy_false_iff (s : String) : pyTruthy s = false ↔ s = "" := by
  cases s with
  | mk l => cases l with
    | nil => simp [pyTruthy]
    | cons c cs => simp [pyTruthy, String.ext_iff]

theorem pyTruthy_true_iff (s : String) : pyTruthy s = true ↔ s ≠ "" := by
  constructor
  · intro h he
    rw [(pyTruthy_false_iff s).mpr he] at h
    cases h
  · intro h
    cases hb : pyTruthy s
    · exact absurd ((pyTruthy_false_iff s).mp hb) h
    · rfl

theorem pyOrD_of_not_truthy {o : Option String} {d : String} (h : optTruthy o = false) :
    pyOrD o d = d := by
  cases o with
  | none => rfl
  | some s => simp [optTruthy] at h; simp [pyOrD, h]

theorem pyOr_of_not_truthy {a b : Option String} (h : optTruthy a = false) : pyOr a b = b := by
  simp [pyOr, h]

/-! ### Invariants of the generic scanner's dict -/

/-- Every entry of the `found` dict is keyed by its own (nonempty) access
URL. -/
def foundInv (m : FoundMap) : Prop := ∀ p ∈ m, p.2.accessURL = p.1 ∧ p.1 ≠ ""

theorem foundInv_tail {p : String × Distribution} {rest : FoundMap}
    (h : foundInv (p :: rest)) : foundInv rest :=
  fun q hq => h q (List.mem_cons_of_mem p hq)

theorem foundInv_alSet {m : FoundMap} {k : String} {v : Distribution}
    (hm : foundInv m) (hv : v.accessURL = k) (hk : k ≠ "") : foundInv (alSet m k v) := by
  induction m with
  | nil =>
    intro p hp
    simp [alSet] at hp
    subst hp
    exact ⟨hv, hk⟩
  | cons q rest ih =>
    obtain ⟨k1, v1⟩ := q
    unfold alSet
    by_cases h : k1 = k
    · rw [if_pos h]
      intro p hp
      rcases List.mem_cons.mp hp with rfl | hmem
      · exact ⟨by rw [hv, h], by rw [h]; exact hk⟩
      · exact hm p (List.mem_cons_of_mem _ hmem)
    · rw [if_neg h]
      intro p hp
      rcases List.mem_cons.mp hp with rfl | hmem
      · exact hm _ (List.mem_cons_self _ _)
      · exact ih (foundInv_tail hm) p hmem

theorem foundInv_alSetdefault {m : FoundMap} {k : String} {v : Distribution}
    (hm : foundInv m) (hv : v.accessURL = k) (hk : k ≠ "") :
    foundInv (alSetdefault m k v) := by
  unfold alSetdefault
  split
  · exact hm
  · intro p hp
    rcases List.mem_append.mp hp with hmem | hmem
    · exact hm p hmem
    · have hpk := List.mem_singleton.mp hmem
      subst hpk
      exact ⟨hv, hk⟩

theorem foldl_pres {α β : Type} {P : α → Prop} {f : α → β → α}
    (h : ∀ a b, P a → P (f a b)) : ∀ (l : List β) (a : α), P a → P (l.foldl f a) := by
  intro l
  induction l with
  | nil => intro a ha; exact ha
  | cons x xs ih => intro a ha; exact ih (f a x) (h a x ha)

theorem extListSearch_string_ne {exts : List String} {terms : List Char} {full : String}
    {e : String} (h : extListSearch exts terms full.data = some e) : full ≠ "" := by
  intro hf
  subst hf
  exact absurd h (by simp [extListSearch])

theorem httpMatchAt_ne_nil {l r : List Char} (h : httpMatchAt l = some r) : r ≠ [] := by
  unfold httpMatchAt at h
  split at h
  · injection h with h; subst h; simp
  · split at h
    · injection h with h; subst h; simp
    · cases h

theorem urlLikeSearch_ne_empty : ∀ {l : List Char} {s : String},
    urlLikeSearch l = some s → s ≠ "" := by
  intro l
  induction l with
  | nil => intro s h; cases h
  | cons c rest ih =>
    intro s h
    unfold urlLikeSearch at h
    cases hm : httpMatchAt (c :: rest) with
    | some r =>
      rw [hm] at h
      injection h with h
      subst h
      have := httpMatchAt_ne_nil hm
      cases r with
      | nil => exact absurd rfl this
      | cons a as => simp [String.ext_iff]
    | none =>
      rw [hm] at h
      exact ih h

theorem scriptScanGo_inv : ∀ (fuel : Nat) (done todo : List Char) (m : FoundMap),
    foundInv m → foundInv (scriptScanGo fuel done todo m) := by
  intro fuel
  induction fuel with
  | zero => intro done todo m hm; exact hm
  | succ n ih =>
    intro done todo m hm
    unfold scriptScanGo
    cases todo with
    | nil => exact hm
    | cons c rest =>
      cases hl : extMatchLen genericExts ['?', '#'] (c :: rest) with
      | none => exact ih _ _ _ hm
      | some len =>
        cases hu : urlLikeSearch ((done.take 100).reverse ++ (c :: rest).take (len + 100)) with
        | none =>
          simp only [hl, hu]
          exact ih _ _ _ hm
        | some full =>
          simp only [hl, hu]
          exact ih _ _ _ (foundInv_alSetdefault hm rfl (urlLikeSearch_ne_empty hu))

theorem genericInsert_inv {base : String} {m : FoundMap} {href : String} {tOpt : Option String}
    (hm : foundInv m) : foundInv (genericInsert base m href tOpt) := by
  unfold genericInsert
  split
  · next heq => exact foundInv_alSet hm rfl (extListSearch_string_ne heq)
  · exact hm

theorem anchorFold_inv (base : String) (m : FoundMap) (n : Node) (hm : foundInv m) :
    foundInv (anchorFold base m n) := by
  unfold anchorFold
  split
  · split
    · split
      · exact hm
      · exact genericInsert_inv hm
    · exact hm
  · exact hm

theorem attrFold_inv (base : String) (m : FoundMap) (n : Node) (hm : foundInv m) :
    foundInv (attrFold base m n) := by
  unfold attrFold
  split
  · apply foldl_pres _ dataAttrNames m hm
    intro m1 a hm1
    split
    · split
      · exact hm1
      · exact genericInsert_inv hm1
    · exact hm1
  · exact hm

theorem scriptFold_inv (m : FoundMap) (n : Node) (hm : foundInv m) :
    foundInv (scriptFold m n) := by
  unfold scriptFold
  split
  · exact scriptScanGo_inv _ _ _ _ hm
  · exact hm

theorem genericFoundMap_inv (s : Soup) (base : String) : foundInv (genericFoundMap s base) := by
  unfold genericFoundMap
  apply foldl_pres (fun m n hm => scriptFold_inv m n hm)
  apply foldl_pres (fun m n hm => attrFold_inv base m n hm)
  apply foldl_pres (fun m n hm => anchorFold_inv base m n hm)
  intro p hp
  cases hp

/-! ### Properties of the merge, the promotion and the sorted output -/

theorem listHasStr_nil (t : String) : listHasStr [] t = false := rfl

theorem listHasStr_cons (a t : String) (l : List String) :
    listHasStr (a :: l) t = (decide (a = t) || listHasStr l t) := rfl

/-- Every record the merge emits is the first record of the input carrying
its access URL, unchanged, and that URL is truthy and not previously
seen. -/
theorem dedupByUrlGo_mem : ∀ (seen : List String) (ds : List Distribution) (d : Distribution),
    d ∈ dedupByUrlGo seen ds →
    pyTruthy d.accessURL = true ∧ listHasStr seen d.accessURL = false
      ∧ ds.find? (fun e => e.accessURL = d.accessURL) = some d := by
  intro seen ds
  induction ds generalizing seen with
  | nil => intro d h; cases h
  | cons x t ih =>
    intro d h
    unfold dedupByUrlGo at h
    by_cases hc : (pyTruthy x.accessURL && !listHasStr seen x.accessURL) = true
    · rw [if_pos hc] at h
      rw [Bool.and_eq_true] at hc
      obtain ⟨hx1, hx2⟩ := hc
      rcases List.mem_cons.mp h with rfl | hmem
      · refine ⟨hx1, by simpa using hx2, ?_⟩
        rw [List.find?_cons_of_pos _ (by simp)]
      · obtain ⟨h1, h2, h3⟩ := ih (x.accessURL :: seen) d hmem
        rw [listHasStr_cons] at h2
        have h2a : x.accessURL ≠ d.accessURL := by
          intro he
          simp [he] at h2
        have h2b : listHasStr seen d.accessURL = false := by
          rcases Bool.or_eq_false_iff.mp h2 with ⟨_, hb⟩
          exact hb
        refine ⟨h1, h2b, ?_⟩
        rw [List.find?_cons_of_neg _ (by simp [h2a]), h3]
    · rw [if_neg hc] at h
      obtain ⟨h1, h2, h3⟩ := ih seen d h
      have hne : x.accessURL ≠ d.accessURL := by
        intro he
        apply hc
        rw [he, h1, h2]
        rfl
      refine ⟨h1, h2, ?_⟩
      rw [List.find?_cons_of_neg _ (by simp [hne]), h3]

theorem dedupByUrlGo_sublist : ∀ (seen : List String) (ds : List Distribution),
    List.Sublist (dedupByUrlGo seen ds) ds := by
  intro seen ds
  induction ds generalizing seen with
  | nil => exact List.Sublist.refl []
  | cons x t ih =>
    unfold dedupByUrlGo
    split
    · exact List.Sublist.cons₂ x (ih _)
    · exact List.Sublist.cons x (ih _)

theorem dedupByUrlGo_eq_nil : ∀ (seen : List String) (ds : List Distribution),
    dedupByUrlGo seen ds = [] → ∀ d ∈ ds,
      pyTruthy d.accessURL = false ∨ listHasStr seen d.accessURL = true := by
  intro seen ds
  induction ds generalizing seen with
  | nil => intro _ d hd; cases hd
  | cons x t ih =>
    intro h d hd
    unfold dedupByUrlGo at h
    by_cases hc : (pyTruthy x.accessURL && !listHasStr seen x.accessURL) = true
    · rw [if_pos hc] at h; cases h
    · rw [if_neg hc] at h
      rcases List.mem_cons.mp hd with rfl | hmem
      · cases hpx : pyTruthy d.accessURL
        · exact Or.inl rfl
        · cases hlx : listHasStr seen d.accessURL
          · exact absurd (by rw [hpx, hlx]; rfl) hc
          · exact Or.inr rfl
      · exact ih seen h d hmem

theorem promoteFirstDist_ne_nil {ds : List Distribution} (h : ds ≠ []) :
    promoteFirstDist ds ≠ [] := by
  cases ds with
  | nil => exact absurd rfl h
  | cons d t =>
    unfold promoteFirstDist
    split <;> simp

theorem promoteCsv_ne_nil {site : String} {ds : List Distribution} (h : ds ≠ []) :
    promoteCsv site ds ≠ [] := by
  unfold promoteCsv
  split
  · exact promoteFirstDist_ne_nil h
  · exact h

theorem promoteCsv_not_kaggle {site : String} (h : site ≠ "kaggle") (ds : List Distribution) :
    promoteCsv site ds = ds := by
  unfold promoteCsv
  rw [if_neg]
  intro hx
  exact h hx.1

/-- The promotion rewrites exactly the first eligible record, in place. -/
theorem promoteFirstDist_append (pre : List Distribution) (d : Distribution)
    (post : List Distribution) (hpre : ∀ e ∈ pre, promotableDist e = false)
    (hd : promotableDist d = true) :
    promoteFirstDist (pre ++ d :: post) = pre ++ promoteDist d :: post := by
  induction pre with
  | nil => simp [promoteFirstDist, hd]
  | cons e es ih =>
    have he := hpre e (List.mem_cons_self e es)
    have hstep : promoteFirstDist (e :: es ++ d :: post)
        = e :: promoteFirstDist (es ++ d :: post) := by
      rw [List.cons_append]
      show (if promotableDist e = true then promoteDist e :: (es ++ d :: post)
            else e :: promoteFirstDist (es ++ d :: post)) = _
      rw [if_neg (by rw [he]; exact Bool.false_ne_true)]
    rw [hstep, ih (fun x hx => hpre x (List.mem_cons_of_mem e hx)), List.cons_append]

/-- Values of a key-sorted dict whose entries are keyed by their access
URL are sorted by access URL. -/
theorem sortedVals {m2 : FoundMap} (hinv : ∀ p ∈ m2, p.2.accessURL = p.1) :
    List.Pairwise strLeP
      (((List.insertionSort alKeyLe m2).map (fun p => p.2)).map Distribution.accessURL) := by
  rw [List.map_map, List.pairwise_map]
  have hs : List.Pairwise alKeyLe (List.insertionSort alKeyLe m2) :=
    List.sorted_insertionSort alKeyLe m2
  have hperm := List.perm_insertionSort alKeyLe m2
  apply List.Pairwise.imp_of_mem ?_ hs
  intro a b ha hb hab
  have ha2 := hinv a (hperm.subset ha)
  have hb2 := hinv b (hperm.subset hb)
  show strLe (a.2.accessURL) (b.2.accessURL) = true
  rw [ha2, hb2]
  exact hab

/-- The generic scanner's output is sorted lexicographically by access
URL. -/
theorem extractDistributions_sorted (s : Soup) (url : String) :
    List.Pairwise strLeP ((extractDistributionsFromSoup s url).map Distribution.accessURL) := by
  unfold extractDistributionsFromSoup foundOrFallback
  split
  · apply sortedVals
    intro p hp
    have := List.mem_singleton.mp hp
    subst this
    rfl
  · apply sortedVals
    intro p hp
    exact (genericFoundMap_inv s url p hp).1

/-- An empty generic dict yields exactly the fallback distribution. -/
theorem extract_fallback {s : Soup} {url : String} (h : genericFoundMap s url = []) :
    extractDistributionsFromSoup s url = [fallbackDist url] := by
  unfold extractDistributionsFromSoup foundOrFallback
  rw [h]
  rfl

/-- A nonempty generic dict contributes an entry with a truthy URL. -/
theorem extract_exists_truthy (s : Soup) (url : String) (h : url ≠ "") :
    ∃ d ∈ extractDistributionsFromSoup s url, pyTruthy d.accessURL = true := by
  by_cases hm : genericFoundMap s url = []
  · refine ⟨fallbackDist url, ?_, (pyTruthy_true_iff url).mpr h⟩
    rw [extract_fallback hm]
    exact List.mem_singleton.mpr rfl
  · obtain ⟨p, hp⟩ := List.exists_mem_of_ne_nil _ hm
    have hinv := genericFoundMap_inv s url p hp
    refine ⟨p.2, ?_, ?_⟩
    · unfold extractDistributionsFromSoup foundOrFallback
      rw [if_neg (by simpa [List.isEmpty_iff] using hm)]
      exact List.mem_map_of_mem _ (((List.perm_insertionSort alKeyLe _).mem_iff).mpr hp)
    · rw [hinv.1]
      exact (pyTruthy_true_iff _).mpr hinv.2

/-- Discovery always contributes a truthy-URL candidate when the page URL
is nonempty. -/
theorem discover_exists_truthy (site : String) (soup : Option Soup) (url : String)
    (h : url ≠ "") :
    ∃ d ∈ discoverDistributions site soup url, pyTruthy d.accessURL = true := by
  cases soup with
  | none =>
    exact ⟨⟨url, guessMediaTypeFromUrl url, uppercaseExtFromUrl url, none⟩,
      List.mem_singleton.mpr rfl, (pyTruthy_true_iff url).mpr h⟩
  | some s =>
    obtain ⟨d, hmem, ht⟩ := extract_exists_truthy s url h
    exact ⟨d, List.mem_append_right _ hmem, ht⟩

/-! ### The claims -/

/-- C1: For the kaggle site variant, when after merging no distribution has
media type `text/csv` or format label `CSV`, the assembler rewrites in place
the first merged distribution whose access URL contains the kaggle domain
and whose media type is `text/html`, setting its media type to `text/csv`
and its format to `CSV`, and stops at the first such match; and for a
kaggle-variant page whose only discovered distribution is an HTML page on
the kaggle domain, the assembled record contains exactly one distribution,
with media type `text/csv` and format `CSV`. -/
theorem kaggle_csv_promotion :
    (∀ (pre : List Distribution) (d : Distribution) (post : List Distribution),
      hasCsvDist (pre ++ d :: post) = false →
      (∀ e ∈ pre, promotableDist e = false) →
      promotableDist d = true →
      promoteCsv "kaggle" (pre ++ d :: post) = pre ++ promoteDist d :: post)
    ∧ (convertToDcatDynamic rjEmpty "https://www.kaggle.com/datasets/foo"
        (some []) none).distribution
      = [⟨"https://www.kaggle.com/datasets/foo", "text/csv", "CSV", none⟩] := by
  constructor
  · intro pre d post hcsv hpre hd
    unfold promoteCsv
    rw [if_pos ⟨rfl, hcsv⟩]
    exact promoteFirstDist_append pre d post hpre hd
  · decide

/-- Witness for C1: the promotion applied to a concrete one-element merged
list. -/
theorem kaggle_csv_promotion_witness :
    promoteCsv "kaggle" [⟨"https://www.kaggle.com/p", "text/html", "HTML", none⟩]
      = [promoteDist ⟨"https://www.kaggle.com/p", "text/html", "HTML", none⟩] := by
  have h := kaggle_csv_promotion.1 []
    ⟨"https://www.kaggle.com/p", "text/html", "HTML", none⟩ []
    (by decide) (by intro e he; cases he) (by decide)
  simpa using h

theorem computeDatesRaw_aikosh_modified (mdl : List Md) :
    (computeDatesRaw "aikosh" mdl).2 = none := by
  cases mdl with
  | nil => rfl
  | cons md tl => rfl

theorem aikosh_computeDates_modified (mdl : List Md) :
    (computeDates "aikosh" mdl).2 = none := by
  unfold computeDates
  split
  · rfl
  · exact computeDatesRaw_aikosh_modified mdl

/-- C2: For every input (raw metadata mapping, markup tree and URL), when
the effective site variant is aikosh the assembled record never carries a
`modified` field: the aikosh date branch forces `modified` to `None`, and
the promotion step (which would move a lone `modified` into `issued`)
leaves it `None`. -/
theorem aikosh_never_modified (rj : RawJson) (url : String) (soup : Option Soup)
    (hint : Option String) (h : computeSiteHint hint url = "aikosh") :
    (convertToDcatDynamic rj url soup hint).modified = none := by
  have hm : (convertToDcatDynamic rj url soup hint).modified
      = optKeep (computeDates (computeSiteHint hint url) rj.metadataList).2 := rfl
  rw [hm, h, aikosh_computeDates_modified]
  rfl

/-- Witness for C2 at a concrete aikosh input carrying date-like keys. -/
theorem aikosh_never_modified_witness :
    (convertToDcatDynamic
      ⟨some "T", none, none, none, none, [[("Last Updated", "15/03/2023")]], none⟩
      "https://aikosh.example.org/d" none none).modified = none :=
  aikosh_never_modified
    ⟨some "T", none, none, none, none, [[("Last Updated", "15/03/2023")]], none⟩
    "https://aikosh.example.org/d" none none (by decide)

/-- C3 counterexample: the claim maps two-digit year 50 to 1950, but the
code parses `01/01/50` through `strptime`'s `%d/%m/%y`, whose pivot is 68,
yielding year 2050. -/
theorem two_digit_pivot_counterexample :
    parseDateFromMetadata "01/01/50" = some "2050-01-01"
    ∧ String.mk (("2050-01-01").data.take 4) = "2050"
    ∧ ("2050" : String) ≠ "1950" :=
  ⟨by decide, by decide, by decide⟩

/-- C3 (amended): in the pattern-matching path two-digit years follow
CPython's `strptime` pivot (`00-68` map to `20YY`, `69-99` to `19YY`), so
`01/01/24` gives 2024 but `01/01/50` gives 2050; the `<= 25` pivot of the
claim applies only in the fallback year extraction, where a standalone
two-digit token maps to `20YY` when at most 25 and to `19YY` otherwise. -/
theorem two_digit_pivot_amended :
    parseDateFromMetadata "01/01/24" = some "2024-01-01"
    ∧ parseDateFromMetadata "01/01/50" = some "2050-01-01"
    ∧ parseDateFromMetadata "01/01/68" = some "2068-01-01"
    ∧ parseDateFromMetadata "01/01/69" = some "1969-01-01"
    ∧ parseDateFromMetadata "01/01/99" = some "1999-01-01"
    ∧ extractYearFromString "vol 24" = some "2024"
    ∧ extractYearFromString "vol 25" = some "2025"
    ∧ extractYearFromString "vol 26" = some "1926"
    ∧ extractYearFromString "vol 50" = some "1950" := by
  refine ⟨by decide, by decide, by decide, by decide, by decide, by decide, by decide,
    by decide, by decide⟩

/-- The page used by the C4 counterexample: an anchor with a visible title
followed by an element whose download-hint attribute names the same URL. -/
def overwriteSoup : Soup :=
  [.elem "body" []
    [.elem "a" [("href", "http://x.com/f.csv")] [.text "T"],
     .elem "div" [("data-download", "http://x.com/f.csv")] []]]

/-- C4 counterexample: after the anchor scan the dict holds the title `T`
for the URL, yet the attribute scan of the same URL replaces the record
wholesale and the final output has no title — the earlier populated field
did not survive. -/
theorem later_scan_overwrites_title :
    alGet ((soupDesc overwriteSoup).foldl (anchorFold "http://x.com/page") [])
        "http://x.com/f.csv"
      = some ⟨"http://x.com/f.csv", "text/csv", "CSV", some "T"⟩
    ∧ extractDistributionsFromSoup overwriteSoup "http://x.com/page"
      = [⟨"http://x.com/f.csv", "text/csv", "CSV", none⟩] :=
  ⟨by decide, by decide⟩

/-- C4 (amended): in the scanner dict the anchor and attribute scans
overwrite an existing entry wholesale (so an earlier title does not
survive), and only the inline-script scan never touches an existing key;
in the assembler's merge a later candidate with an already-seen access URL
is dropped entirely, so every merged record is the first-seen record for
its URL, unchanged (the kaggle CSV-promotion being the one post-merge
rewrite). -/
theorem merge_first_wins :
    (∀ (m : FoundMap) (k : String) (v : Distribution),
      (alGet m k).isSome = true → alSetdefault m k v = m)
    ∧ (∀ (ds : List Distribution) (d : Distribution), d ∈ dedupByUrl ds →
      ds.find? (fun e => e.accessURL = d.accessURL) = some d) := by
  constructor
  · intro m k v h
    unfold alSetdefault
    rw [if_pos h]
  · intro ds d h
    exact (dedupByUrlGo_mem [] ds d h).2.2

/-- Witness for C4 at a concrete dict and a concrete merge. -/
theorem merge_first_wins_witness :
    alSetdefault [("u", fallbackDist "u")] "u" (fallbackDist "v") = [("u", fallbackDist "u")]
    ∧ List.find? (fun e => e.accessURL = (fallbackDist "u").accessURL) [fallbackDist "u"]
      = some (fallbackDist "u") :=
  ⟨merge_first_wins.1 [("u", fallbackDist "u")] "u" (fallbackDist "v") (by decide),
   merge_first_wins.2 [fallbackDist "u"] (fallbackDist "u") (by decide)⟩

/-- The page used by the C5 counterexample: a kaggle file container whose
anchor has no downloadable extension, so only the site-specific scanner
records it. -/
def suppressSoup : Soup :=
  [.elem "div" [("class", "files")]
    [.elem "a" [("href", "https://www.kaggle.com/x/explore")] [.text "E"]]]

/-- C5 counterexample: the kaggle scanner discovered a distribution, yet
the record still contains a fallback distribution pointing at the page's
own URL, because the fallback is keyed to the generic scan alone (the
discovered entry is then rewritten by the CSV promotion). -/
theorem fallback_not_suppressed :
    extractKaggleSpecific suppressSoup "https://www.kaggle.com/x"
      = [⟨"https://www.kaggle.com/x/explore", "text/html", "HTML", some "E"⟩]
    ∧ (convertToDcatDynamic rjEmpty "https://www.kaggle.com/x"
        (some suppressSoup) none).distribution
      = [⟨"https://www.kaggle.com/x/explore", "text/csv", "CSV", some "E"⟩,
         ⟨"https://www.kaggle.com/x", "text/html", "HTML", none⟩] :=
  ⟨by decide, by decide⟩

/-- C5 (amended): the HTML fallback is synthesized iff the generic scanner
itself discovered nothing — site-specific discoveries do not suppress it;
when no scanner (site-specific or generic) discovers anything, the merged
list is exactly the one fallback at the page's URL, subject only to the
kaggle CSV-promotion. -/
theorem fallback_iff_generic_empty :
    (∀ (s : Soup) (url : String), genericFoundMap s url = [] →
      extractDistributionsFromSoup s url = [fallbackDist url])
    ∧ (∀ (s : Soup) (url : String), genericFoundMap s url ≠ [] →
      ∀ d ∈ extractDistributionsFromSoup s url,
        d ∈ (genericFoundMap s url).map (fun p => p.2))
    ∧ (∀ (rj : RawJson) (url : String) (hint : Option String) (s : Soup),
      siteSpecificDists (computeSiteHint hint url) s url = [] →
      genericFoundMap s url = [] → url ≠ "" →
      (convertToDcatDynamic rj url (some s) hint).distribution
        = promoteCsv (computeSiteHint hint url) [fallbackDist url]) := by
  refine ⟨?_, ?_, ?_⟩
  · intro s url h
    exact extract_fallback h
  · intro s url hm d hd
    unfold extractDistributionsFromSoup foundOrFallback at hd
    rw [if_neg (by simpa [List.isEmpty_iff] using hm)] at hd
    obtain ⟨p, hp, rfl⟩ := List.mem_map.mp hd
    exact List.mem_map_of_mem _ (((List.perm_insertionSort alKeyLe _).mem_iff).mp hp)
  · intro rj url hint s h1 h2 h3
    have hd : (convertToDcatDynamic rj url (some s) hint).distribution
        = promoteCsv (computeSiteHint hint url)
            (dedupByUrl (siteSpecificDists (computeSiteHint hint url) s url
              ++ extractDistributionsFromSoup s url)) := rfl
    rw [hd, h1, extract_fallback h2, List.nil_append]
    congr 1
    unfold dedupByUrl dedupByUrlGo
    rw [if_pos]
    · rfl
    · show (pyTruthy url && !listHasStr [] url) = true
      rw [(pyTruthy_true_iff url).mpr h3]
      rfl

/-- Witness for C5: an empty page with an unknown site variant yields
exactly the fallback. -/
theorem fallback_iff_generic_empty_witness :
    extractDistributionsFromSoup [] "http://ex.org/p" = [fallbackDist "http://ex.org/p"]
    ∧ (convertToDcatDynamic rjEmpty "http://ex.org/p" (some []) none).distribution
      = promoteCsv (computeSiteHint none "http://ex.org/p") [fallbackDist "http://ex.org/p"] :=
  ⟨fallback_iff_generic_empty.1 [] "http://ex.org/p" (by decide),
   fallback_iff_generic_empty.2.2 rjEmpty "http://ex.org/p" none [] (by decide) (by decide)
     (by decide)⟩

/-- The page used by the C6 counterexample: a kaggle file container whose
anchors appear in anti-lexicographic order. -/
def orderSoup : Soup :=
  [.elem "div" [("class", "files")]
    [.elem "a" [("href", "https://www.kaggle.com/ds/b.csv")] [],
     .elem "a" [("href", "https://www.kaggle.com/ds/a.csv")] []]]

/-- C6 counterexample: the assembled distribution list keeps the kaggle
scanner's discovery order `b.csv, a.csv`, which is not lexicographic by
access URL. -/
theorem distribution_order_not_lexicographic :
    ((convertToDcatDynamic rjEmpty "https://www.kaggle.com/ds"
        (some orderSoup) none).distribution).map Distribution.accessURL
      = ["https://www.kaggle.com/ds/b.csv", "https://www.kaggle.com/ds/a.csv"]
    ∧ strLe "https://www.kaggle.com/ds/b.csv" "https://www.kaggle.com/ds/a.csv" = false :=
  ⟨by decide, by decide⟩

/-- C6 (amended): the generic scanner's own output is ordered
lexicographically by access URL, and so is the assembled record's list for
the unknown variant (where only the generic scanner contributes); for the
known variants the site-specific discoveries precede the generic ones in
discovery order. -/
theorem generic_output_sorted :
    (∀ (s : Soup) (url : String),
      List.Pairwise strLeP ((extractDistributionsFromSoup s url).map Distribution.accessURL))
    ∧ (∀ (rj : RawJson) (url : String) (hint : Option String) (soup : Option Soup),
      computeSiteHint hint url = "unknown" →
      List.Pairwise strLeP
        (((convertToDcatDynamic rj url soup hint).distribution).map Distribution.accessURL)) := by
  constructor
  · exact extractDistributions_sorted
  · intro rj url hint soup h
    have hd : (convertToDcatDynamic rj url soup hint).distribution
        = promoteCsv (computeSiteHint hint url)
            (dedupByUrl (discoverDistributions (computeSiteHint hint url) soup url)) := rfl
    rw [hd, h, promoteCsv_not_kaggle (by decide)]
    cases soup with
    | none =>
      have hsub := (dedupByUrlGo_sublist []
        [⟨url, guessMediaTypeFromUrl url, uppercaseExtFromUrl url, none⟩]).map
          Distribution.accessURL
      exact List.Pairwise.sublist hsub (by simp)
    | some s =>
      have hdisc : discoverDistributions "unknown" (some s) url
          = extractDistributionsFromSoup s url := by
        show siteSpecificDists "unknown" s url ++ _ = _
        rw [show siteSpecificDists "unknown" s url = [] from rfl, List.nil_append]
      rw [hdisc]
      have hsub := (dedupByUrlGo_sublist [] (extractDistributionsFromSoup s url)).map
        Distribution.accessURL
      exact List.Pairwise.sublist hsub (extractDistributions_sorted s url)

/-- Witness for C6 at a concrete unknown-variant page. -/
theorem generic_output_sorted_witness :
    List.Pairwise strLeP
      (((convertToDcatDynamic rjEmpty "http://ex.org/p" none none).distribution).map
        Distribution.accessURL) :=
  generic_output_sorted.2 rjEmpty "http://ex.org/p" none none (by decide)

/-- C7 counterexample: `https://x.org/d` is a truthy URL with no extension,
yet the classifier returns media type `text/html`, not
`application/octet-stream` as the claim states. -/
theorem classifier_absent_ext_counterexample :
    pyTruthy "https://x.org/d" = true
    ∧ extOf "https://x.org/d" = none
    ∧ guessMediaTypeFromUrl "https://x.org/d" = "text/html"
    ∧ ("text/html" : String) ≠ "application/octet-stream" :=
  ⟨by decide, by decide, by decide, by decide⟩

/-- C7 (amended): the classifier is total; an absent extension yields
`text/html` and format `HTML` whether or not the URL is falsy; a present
but unknown extension yields `application/octet-stream` with the
uppercased raw extension; a known extension yields its table entry. -/
theorem classifier_amended (u : String) :
    (extOf u = none → guessMediaTypeFromUrl u = "text/html" ∧ uppercaseExtFromUrl u = "HTML")
    ∧ (∀ e, extOf u = some e → extMediaGet (strLower e) = none →
        guessMediaTypeFromUrl u = "application/octet-stream"
          ∧ uppercaseExtFromUrl u = strUpper e)
    ∧ (∀ e mt, extOf u = some e → extMediaGet (strLower e) = some mt →
        guessMediaTypeFromUrl u = mt) := by
  refine ⟨?_, ?_, ?_⟩
  · intro h
    constructor
    · unfold guessMediaTypeFromUrl
      split
      · rfl
      · rw [h]
    · unfold uppercaseExtFromUrl
      rw [h]
  · intro e he hm
    constructor
    · unfold guessMediaTypeFromUrl
      split
      · next hu =>
        have hu2 : u = "" := (pyTruthy_false_iff u).mp (by revert hu; cases pyTruthy u <;> simp)
        rw [hu2] at he
        exact Option.noConfusion ((rfl : extOf "" = none).symm.trans he)
      · rw [he]
        show (extMediaGet (strLower e)).getD "application/octet-stream"
          = "application/octet-stream"
        rw [hm]
        rfl
    · unfold uppercaseExtFromUrl
      rw [he]
  · intro e mt he hm
    unfold guessMediaTypeFromUrl
    split
    · next hu =>
      have hu2 : u = "" := (pyTruthy_false_iff u).mp (by revert hu; cases pyTruthy u <;> simp)
      rw [hu2] at he
      exact Option.noConfusion ((rfl : extOf "" = none).symm.trans he)
    · rw [he]
      show (extMediaGet (strLower e)).getD "application/octet-stream" = mt
      rw [hm]
      rfl

/-- Witness for C7 at the three concrete extension situations. -/
theorem classifier_amended_witness :
    (guessMediaTypeFromUrl "https://x.org/d" = "text/html"
      ∧ uppercaseExtFromUrl "https://x.org/d" = "HTML")
    ∧ (guessMediaTypeFromUrl "http://x.org/f.pdf" = "application/octet-stream"
      ∧ uppercaseExtFromUrl "http://x.org/f.pdf" = strUpper "pdf")
    ∧ guessMediaTypeFromUrl "http://x.org/f.csv" = "text/csv" :=
  ⟨(classifier_amended "https://x.org/d").1 (by decide),
   (classifier_amended "http://x.org/f.pdf").2.1 "pdf" (by decide) (by decide),
   (classifier_amended "http://x.org/f.csv").2.2 "csv" "text/csv" (by decide) (by decide)⟩

set_option maxRecDepth 4000 in
/-- C8: serializing a record whose title holds a double quote emits
`dct:title "a\\"b"` — the quote is preceded by two backslashes, so a
standard literal reader sees an escaped backslash, closes the string at
the quote, and recovers `a\` with `b" ;` left over instead of the
original title; the round-trip the claim states fails on this input. -/
theorem turtle_escape_breaks_roundtrip :
    dcatToTurtle (some ⟨"a\"b", "", "p", none, none, none, none, []⟩)
      = "@prefix dcat: <https://www.w3.org/ns/dcat#> .\n@prefix dct: <http://purl.org/dc/terms/> .\n@prefix foaf: <http://xmlns.com/foaf/0.1/> .\n\n_:dataset\n    dct:title \"a\\\\\"b\" ;\n    dct:publisher [ foaf:name \"p\" ] ."
    ∧ turtleEscape "a\"b" = "a\\\\\"b"
    ∧ parseStringLiteral ("a\\\\\"b\" ;").data = some ("a\\", "b\" ;".data)
    ∧ ("a\\" : String) ≠ "a\"b" :=
  ⟨by decide, by decide, by decide, by decide⟩

/-- C9: the assembler is deterministic — the embedding of
`convert_to_dcat_dynamic` (and of the serializer over its output) is a
pure function of the scrape result, the URL, the markup tree and the
variant hint, so two invocations with identical inputs produce identical
records, with every contained list identical. -/
theorem assembler_deterministic (rj : RawJson) (url : String) (soup : Option Soup)
    (hint : Option String) :
    convertToDcatDynamic rj url soup hint = convertToDcatDynamic rj url soup hint
    ∧ dcatToTurtle (some (convertToDcatDynamic rj url soup hint))
      = dcatToTurtle (some (convertToDcatDynamic rj url soup hint)) :=
  ⟨rfl, rfl⟩

/-- C10 counterexample: with an empty page URL and no markup tree the
synthesized distribution's access URL is falsy and the merge drops it,
leaving an empty distribution list. -/
theorem empty_url_empty_distributions :
    (convertToDcatDynamic rjEmpty "" none none).distribution = [] := by decide

/-- C10 (amended): the record always carries title, description and
publisher — title defaulting to the literal `dataset`, description to the
empty string, and publisher to `Unknown` once the metadata chain, the
`Source` field and the URL's hostname all fail — and the distribution
list is non-empty whenever the page URL is non-empty (an empty URL makes
the merge drop the fallback, leaving the list empty). -/
theorem record_default_fields (rj : RawJson) (url : String) (hint : Option String)
    (soup : Option Soup) :
    (optTruthy rj.titleKey = false → optTruthy rj.titleLow = false →
      (convertToDcatDynamic rj url soup hint).title = "dataset")
    ∧ (optTruthy rj.aboutDataset = false → optTruthy rj.summary = false →
        optTruthy rj.description = false →
      (convertToDcatDynamic rj url soup hint).description = "")
    ∧ (optTruthy (mdPublisher (computeSiteHint hint url) rj.metadataList) = false →
        optTruthy rj.source = false → hostnameOf url = none →
      (convertToDcatDynamic rj url soup hint).publisher = "Unknown")
    ∧ (url ≠ "" → (convertToDcatDynamic rj url soup hint).distribution ≠ []) := by
  refine ⟨?_, ?_, ?_, ?_⟩
  · intro h1 h2
    have ht : (convertToDcatDynamic rj url soup hint).title
        = pyOrD (pyOr rj.titleKey rj.titleLow) "dataset" := rfl
    rw [ht, pyOr_of_not_truthy h1, pyOrD_of_not_truthy h2]
  · intro h1 h2 h3
    have ht : (convertToDcatDynamic rj url soup hint).description
        = pyOrD (pyOr (pyOr rj.aboutDataset rj.summary) rj.description) "" := rfl
    rw [ht, pyOr_of_not_truthy h1, pyOr_of_not_truthy h2, pyOrD_of_not_truthy h3]
  · intro h1 h2 h3
    have ht : (convertToDcatDynamic rj url soup hint).publisher
        = computePublisher (computeSiteHint hint url) rj url := rfl
    rw [ht]
    unfold computePublisher
    rw [h1, if_neg Bool.false_ne_true, pyOr_of_not_truthy h2, h3]
    rfl
  · intro h
    have hd : (convertToDcatDynamic rj url soup hint).distribution
        = promoteCsv (computeSiteHint hint url)
            (dedupByUrl (discoverDistributions (computeSiteHint hint url) soup url)) := rfl
    rw [hd]
    apply promoteCsv_ne_nil
    intro hnil
    obtain ⟨d, hmem, hdt⟩ := discover_exists_truthy (computeSiteHint hint url) soup url h
    rcases dedupByUrlGo_eq_nil [] _ hnil d hmem with hf | hs
    · rw [hdt] at hf
      cases hf
    · rw [listHasStr_nil] at hs
      cases hs

/-- Witness for C10 at concrete inputs discharging every hypothesis. -/
theorem record_default_fields_witness :
    (convertToDcatDynamic rjEmpty "" none (some "unknown")).title = "dataset"
    ∧ (convertToDcatDynamic rjEmpty "" none (some "unknown")).description = ""
    ∧ (convertToDcatDynamic rjEmpty "" none (some "unknown")).publisher = "Unknown"
    ∧ (convertToDcatDynamic rjEmpty "http://ex.org/p" none none).distribution ≠ [] :=
  ⟨(record_default_fields rjEmpty "" (some "unknown") none).1 (by decide) (by decide),
   (record_default_fields rjEmpty "" (some "unknown") none).2.1 (by decide) (by decide)
     (by decide),
   (record_default_fields rjEmpty "" (some "unknown") none).2.2.1 (by decide) (by decide)
     (by decide),
   (record_default_fields rjEmpty "http://ex.org/p" none none).2.2.2 (by decide)⟩
